import Mathlib

/-!
Verification of the H-language interpreter core (lexer, parser expression
layer, value model, environment and evaluator) against its specification.

The development is a shallow embedding of the Python sources:
* `core/hl_types/primitive.py` and `core/types/operations.py` as a pure
  value model (`HValue`, `Operations`);
* `core/lexer.py` as an executable tokenizer (`Lexer`);
* the expression layer of `core/parser.py` (`Parser`);
* `core/interpreter_impl/environment.py`, `core/interpreter_impl/evaluator.py`
  and the list builtins of `stdlib/builtins.py` as a fuelled interpreter with
  an explicit list store (`Interp`), so that Python's reference semantics for
  list objects (sharing, in-place mutation) is represented faithfully.

Python floats are modelled by `Rat`: every numeric literal and operation used
by the theorems below is exact in double precision, so rational arithmetic
agrees with the source on them.
-/

namespace HPL

/-! ## Pure value model: `core/hl_types/primitive.py` -/

/-- Runtime values: `HNumber`, `HString`, `HBoolean`, `HList`, `HNull`
(classes of `primitive.py`); the `value` payload of each class is the
constructor argument. -/
inductive HValue where
  | HNumber (v : Rat)
  | HString (s : String)
  | HBoolean (b : Bool)
  | HList (elems : List HValue)
  | HNull
deriving Repr

/-- Numeric value of a Python `bool` (`True == 1`, `False == 0`). -/
def boolRat (b : Bool) : Rat := if b then 1 else 0

mutual
/-- Python `==` on the `.value` payloads, exactly as `HValue.__eq__` computes
it: numbers and booleans are numerically comparable in the host language,
lists compare elementwise through `HValue.__eq__` again, `None == None`,
and every other cross-type pair is `False`. -/
def pyEq : HValue → HValue → Bool
  | .HNumber x, .HNumber y => x == y
  | .HNumber x, .HBoolean b => x == boolRat b
  | .HBoolean a, .HNumber y => boolRat a == y
  | .HBoolean a, .HBoolean b => a == b
  | .HString s, .HString t => s == t
  | .HList xs, .HList ys => pyEqList xs ys
  | .HNull, .HNull => true
  | _, _ => false

/-- Python `list.__eq__` on two lists of `HValue` objects. -/
def pyEqList : List HValue → List HValue → Bool
  | [], [] => true
  | x :: xs, y :: ys => pyEq x y && pyEqList xs ys
  | _, _ => false
end

/-- `HValue.type_name` of each class. -/
def type_name : HValue → String
  | .HNumber _ => "number"
  | .HString _ => "string"
  | .HBoolean _ => "boolean"
  | .HList _ => "list"
  | .HNull => "null"

/-- `HValue.is_truthy`: numbers are truthy iff nonzero, strings and lists iff
nonempty, booleans as themselves, null never. -/
def is_truthy : HValue → Bool
  | .HNumber v => v != 0
  | .HString s => s.length > 0
  | .HBoolean b => b
  | .HList l => l.length > 0
  | .HNull => false

/-- Python `int(q)` on a float: truncation toward zero. -/
def HNumber.to_int (q : Rat) : Int := q.num.tdiv q.den

/-- `HNumber.is_integer`: `self.value == int(self.value)`. -/
def HNumber.is_integer (q : Rat) : Bool := q == (HNumber.to_int q : Rat)

/-- `HList.get_element`: a negative index wraps from the end once; any index
still outside range raises "List index out of range". -/
def HList.get_element (elems : List HValue) (index : Int) : Except String HValue :=
  let i := if index < 0 then (elems.length : Int) + index else index
  if i < 0 ∨ (elems.length : Int) ≤ i then
    .error "List index out of range"
  else
    .ok (elems.getD i.toNat .HNull)

/-- The bound handling of `HList.get_slice`, over any element type (it is
shared by the pure and the store-based model): absent bounds default to `0`
and `length`; a negative bound counts from the end but is clamped at `0`;
finally both bounds are clamped into `[0, length]` and the Python slice
`value[start:end]` is taken. -/
def pySlice {α : Type} (elems : List α) (start? stop? : Option Int) : List α :=
  let length : Int := elems.length
  let start := match start? with
    | none => 0
    | some s => if s < 0 then max 0 (length + s) else s
  let stop := match stop? with
    | none => length
    | some e => if e < 0 then max 0 (length + e) else e
  let start := max 0 (min start length)
  let stop := max 0 (min stop length)
  (elems.drop start.toNat).take (stop.toNat - start.toNat)

/-- `HList.get_slice`. -/
def HList.get_slice (elems : List HValue) (start? stop? : Option Int) : List HValue :=
  pySlice elems start? stop?

/-! ## Operations: `core/types/operations.py` -/

namespace Operations

/-- `Operations.equals`: `HBoolean(left == right)` via `HValue.__eq__`;
it is defined for every pair of values and always returns a boolean. -/
def equals (left right : HValue) : HValue := .HBoolean (pyEq left right)

/-- `Operations.not_equals`. -/
def not_equals (left right : HValue) : HValue := .HBoolean (! pyEq left right)

/-- `Operations.list_index`: the container must be a list, the index an
integral number; then defers to `HList.get_element`. -/
def list_index (lst index : HValue) : Except String HValue :=
  match lst with
  | .HList elems =>
    match index with
    | .HNumber q =>
      if ! HNumber.is_integer q then .error "List index must be an integer"
      else HList.get_element elems (HNumber.to_int q)
    | _ => .error "List index must be a number"
  | _ => .error "Cannot index"

/-- `Operations.list_slice`: each present bound must be an integral number;
then defers to `HList.get_slice` (which never fails). -/
def list_slice (lst : HValue) (start? stop? : Option HValue) : Except String HValue :=
  match lst with
  | .HList elems => do
    let start_idx : Option Int ← match start? with
      | none => pure none
      | some (.HNumber q) =>
        if ! HNumber.is_integer q then .error "Slice start must be an integer"
        else pure (some (HNumber.to_int q))
      | some _ => .error "Slice start must be a number"
    let end_idx : Option Int ← match stop? with
      | none => pure none
      | some (.HNumber q) =>
        if ! HNumber.is_integer q then .error "Slice end must be an integer"
        else pure (some (HNumber.to_int q))
      | some _ => .error "Slice end must be a number"
    pure (.HList (HList.get_slice elems start_idx end_idx))
  | _ => .error "Cannot slice"

end Operations

/-! Auxiliary predicates used to state what `pyEq` decides.  A value is
`boolFree` (resp. `numFree`) when no `HBoolean` (resp. `HNumber`) occurs in
it, at any list depth. -/

mutual
def boolFree : HValue → Bool
  | .HBoolean _ => false
  | .HList xs => boolFreeList xs
  | _ => true

def boolFreeList : List HValue → Bool
  | [] => true
  | x :: xs => boolFree x && boolFreeList xs
end

mutual
def numFree : HValue → Bool
  | .HNumber _ => false
  | .HList xs => numFreeList xs
  | _ => true

def numFreeList : List HValue → Bool
  | [] => true
  | x :: xs => numFree x && numFreeList xs
end

/-- The one cross-type coincidence of Python payload equality: a number and a
boolean compare equal when the number is the boolean's numeric value. -/
def numBoolCross : HValue → HValue → Bool
  | .HNumber x, .HBoolean b => x == boolRat b
  | .HBoolean a, .HNumber y => boolRat a == y
  | _, _ => false

/-- `isinstance(v, HNumber)`. -/
def isNumber : HValue → Bool
  | .HNumber _ => true
  | _ => false

/-! ## Lexer: `core/lexer.py`

Tokens are modelled by their `type` and `value` fields; the `line`, `column`
and `lexeme` diagnostic metadata of the Python `Token` dataclass plays no
role in any downstream decision and is omitted.  `add_token` stores the raw
lexeme as the value when no explicit value is supplied, which is mirrored
below (e.g. keyword tokens carry their keyword string). -/

namespace Lexer

/-- The `TokenType` enum of `lexer.py`, in source order. -/
inductive TokenType where
  | NUMBER | STRING | BOOLEAN | NULL
  | IDENTIFIER | GLOBAL_VAR
  | AND | BY | CONTAINS | ELSE | END | EVERY | FALSE | FOR | FROM | HAS | IF | IN
  | INCREASE | IS | NOT | NULL_KEYWORD | ON | OR | REMOVE | RUN | SET | START | STOP
  | THIS | TIMER | TO | TRUE | WAIT | WHEN | WHILE
  | FUNCTION | RETURN | ASK | AS | ECHO
  | PLUS | MINUS | MULTIPLY | DIVIDE | MODULO
  | EQ | NE | GT | LT | GE | LE
  | ASSIGN | DOT | COMMA | COLON | LPAREN | RPAREN | LBRACKET | RBRACKET | LBRACE | RBRACE
  | INDENT | DEDENT | NEWLINE
  | EOF | COMMENT
deriving Repr, DecidableEq

/-- The dynamically typed `value` field of a token: a float, a string, a
boolean, an indentation level, or Python `None`. -/
inductive TokVal where
  | vNone
  | vNum (q : Rat)
  | vStr (s : String)
  | vBool (b : Bool)
  | vInt (n : Nat)
deriving Repr, DecidableEq

structure Token where
  type : TokenType
  value : TokVal
deriving Repr, DecidableEq

/-- The `KEYWORDS` dict of `lexer.py`. -/
def KEYWORDS : List (String × TokenType) :=
  [("and", .AND), ("by", .BY), ("contains", .CONTAINS), ("else", .ELSE),
   ("end", .END), ("every", .EVERY), ("false", .FALSE), ("for", .FOR),
   ("from", .FROM), ("has", .HAS), ("if", .IF), ("in", .IN),
   ("increase", .INCREASE), ("is", .IS), ("not", .NOT), ("null", .NULL_KEYWORD),
   ("on", .ON), ("or", .OR), ("remove", .REMOVE), ("run", .RUN),
   ("set", .SET), ("start", .START), ("stop", .STOP), ("this", .THIS),
   ("timer", .TIMER), ("to", .TO), ("true", .TRUE), ("wait", .WAIT),
   ("when", .WHEN), ("while", .WHILE), ("function", .FUNCTION),
   ("return", .RETURN), ("ask", .ASK), ("as", .AS), ("echo", .ECHO)]

def keywordLookup (s : String) : Option TokenType :=
  (KEYWORDS.find? fun p => p.1 == s).map Prod.snd

/-- `Lexer.INDENT_SIZE`. -/
def INDENT_SIZE : Nat := 4

/-- Characters stripped by Python `str.lstrip()` (the ones that can occur in
a source line). -/
def isPySpace (c : Char) : Bool :=
  c == ' ' || c == '\t' || c == '\r' || c == '\x0b' || c == '\x0c'

def isIdentChar (c : Char) : Bool := c.isAlphanum || c == '_'

/-- `Lexer.read_string`: consume up to the closing quote, decoding the four
escape sequences; a dangling escape or a missing closing quote is an error. -/
def read_string : List Char → List Char → Except String (String × List Char)
  | [], _ => .error "Unterminated string"
  | '"' :: rest, acc => .ok (String.mk acc.reverse, rest)
  | '\\' :: rest, acc =>
    match rest with
    | [] => .error "Unterminated string escape"
    | e :: rest2 =>
      if e = 'n' then read_string rest2 ('\n' :: acc)
      else if e = 't' then read_string rest2 ('\t' :: acc)
      else if e = '"' then read_string rest2 ('"' :: acc)
      else if e = '\\' then read_string rest2 ('\\' :: acc)
      else .error "Unknown escape sequence"
  | c :: rest, acc => read_string rest (c :: acc)

def digitsToNat (ds : List Char) : Nat :=
  ds.foldl (fun acc c => 10 * acc + (c.toNat - '0'.toNat)) 0

/-- `Lexer.read_number`: `digits ('.' digits)?`, optionally preceded by a
literal `-` (see `scan_token`); the decimal value is represented exactly. -/
def read_number (cs : List Char) : Rat × List Char :=
  let (neg, cs) := match cs with
    | '-' :: rest => (true, rest)
    | _ => (false, cs)
  let intDigits := cs.takeWhile Char.isDigit
  let rest := cs.dropWhile Char.isDigit
  let (value, rest) := match rest with
    | '.' :: d :: rest2 =>
      if d.isDigit then
        let fracDigits := (d :: rest2).takeWhile Char.isDigit
        let rest3 := (d :: rest2).dropWhile Char.isDigit
        ((digitsToNat intDigits : Rat) +
          (digitsToNat fracDigits : Rat) / ((10 : Rat) ^ fracDigits.length), rest3)
      else ((digitsToNat intDigits : Rat), rest)
    | _ => ((digitsToNat intDigits : Rat), rest)
  (if neg then -value else value, rest)

/-- `Lexer.read_identifier`: the maximal run of alphanumeric or underscore
characters. -/
def read_identifier (cs : List Char) : String × List Char :=
  (String.mk (cs.takeWhile isIdentChar), cs.dropWhile isIdentChar)

/-- `Lexer.read_block_comment` restricted to a single line (the per-line
lexer of `scan_tokens` never sees a newline): skip to the closing marker or
fail. -/
def skipBlockComment : List Char → Except String (List Char)
  | [] => .error "Unterminated block comment"
  | '*' :: '/' :: rest => .ok rest
  | _ :: rest => skipBlockComment rest

def single_char_tokens (c : Char) : Option TokenType :=
  if c = '+' then some .PLUS
  else if c = '-' then some .MINUS
  else if c = '*' then some .MULTIPLY
  else if c = '/' then some .DIVIDE
  else if c = '%' then some .MODULO
  else if c = '.' then some .DOT
  else if c = ',' then some .COMMA
  else if c = ':' then some .COLON
  else if c = '(' then some .LPAREN
  else if c = ')' then some .RPAREN
  else if c = '[' then some .LBRACKET
  else if c = ']' then some .RBRACKET
  else if c = '{' then some .LBRACE
  else if c = '}' then some .RBRACE
  else none

/-- The `scan_token` loop of `lexer.py` applied to one stripped line,
accumulating tokens (in reverse).  Each branch mirrors a branch of
`scan_token`, in source order. -/
def scanLine (fuel : Nat) (cs : List Char) (acc : List Token) :
    Except String (List Token) :=
  match fuel with
  | 0 => .error "lexer fuel exhausted"
  | fuel + 1 =>
    match cs with
    | [] => .ok acc.reverse
    | c :: rest =>
      if c = '\n' then
        scanLine fuel rest (Token.mk .NEWLINE (.vStr "\n") :: acc)
      else if c = ' ' ∨ c = '\t' ∨ c = '\r' then
        scanLine fuel rest acc
      else if c = '"' then
        match read_string rest [] with
        | .error e => .error e
        | .ok (s, rest2) => scanLine fuel rest2 (Token.mk .STRING (.vStr s) :: acc)
      else if c.isDigit ∨ (c = '-' ∧ (rest.headD ' ').isDigit) then
        let (q, rest2) := read_number (c :: rest)
        scanLine fuel rest2 (Token.mk .NUMBER (.vNum q) :: acc)
      else if c.isAlpha ∨ c = '_' then
        let (name, rest2) := read_identifier (c :: rest)
        let tok := match keywordLookup name with
          | some .TRUE => Token.mk .BOOLEAN (.vBool true)
          | some .FALSE => Token.mk .BOOLEAN (.vBool false)
          | some .NULL_KEYWORD => Token.mk .NULL (.vStr name)
          | some kw => Token.mk kw (.vStr name)
          | none => Token.mk .IDENTIFIER (.vStr name)
        scanLine fuel rest2 (tok :: acc)
      else if c = '$' then
        if (rest.headD ' ').isAlpha ∨ rest.headD ' ' = '_' then
          let (name, rest2) := read_identifier rest
          scanLine fuel rest2 (Token.mk .GLOBAL_VAR (.vStr ("$" ++ name)) :: acc)
        else .error "Global variable name must begin with a letter or underscore"
      else if c = '/' ∧ rest.headD ' ' = '/' then
        scanLine fuel [] acc
      else if c = '/' ∧ rest.headD ' ' = '*' then
        match skipBlockComment rest.tail with
        | .error e => .error e
        | .ok rest2 => scanLine fuel rest2 acc
      else
        match single_char_tokens c with
        | some tt =>
          scanLine fuel rest (Token.mk tt (.vStr (String.mk [c])) :: acc)
        | none =>
          if c = '=' then
            match rest with
            | '=' :: rest2 => scanLine fuel rest2 (Token.mk .EQ (.vStr "==") :: acc)
            | _ => scanLine fuel rest (Token.mk .ASSIGN (.vStr "=") :: acc)
          else if c = '!' then
            match rest with
            | '=' :: rest2 => scanLine fuel rest2 (Token.mk .NE (.vStr "!=") :: acc)
            | _ => .error "A bare exclamation mark is unsupported"
          else if c = '<' then
            match rest with
            | '=' :: rest2 => scanLine fuel rest2 (Token.mk .LE (.vStr "<=") :: acc)
            | _ => scanLine fuel rest (Token.mk .LT (.vStr "<") :: acc)
          else if c = '>' then
            match rest with
            | '=' :: rest2 => scanLine fuel rest2 (Token.mk .GE (.vStr ">=") :: acc)
            | _ => scanLine fuel rest (Token.mk .GT (.vStr ">") :: acc)
          else .error "Unknown character"

/-- The indent-growing loop of `scan_tokens`: while the top of the stack is
below the new indentation, push `top + 4` and emit one INDENT per level.  The
auxiliary `Nat` argument only drives Lean's structural recursion; it strictly
exceeds the number of loop iterations whenever `pushIndents` supplies it. -/
def pushIndentsAux : Nat → List Nat → Nat → List Nat × List Token
  | 0, stack, _ => (stack, [])
  | k + 1, stack, target =>
    if stack.headD 0 < target then
      ((pushIndentsAux k ((stack.headD 0 + INDENT_SIZE) :: stack) target).1,
        Token.mk .INDENT (.vInt (stack.headD 0 + INDENT_SIZE)) ::
          (pushIndentsAux k ((stack.headD 0 + INDENT_SIZE) :: stack) target).2)
    else (stack, [])

def pushIndents (stack : List Nat) (target : Nat) : List Nat × List Token :=
  pushIndentsAux (target + 1) stack target

/-- The dedent loop of `scan_tokens`: while the top of the stack is above the
new indentation, pop and emit one DEDENT carrying the new top.  No check that
the final top equals the new indentation is performed. -/
def popDedents (stack : List Nat) (target : Nat) : List Nat × List Token :=
  match stack with
  | [] => ([], [])
  | top :: rest =>
    if top > target then
      ((popDedents rest target).1,
        Token.mk .DEDENT (.vInt (rest.headD 0)) :: (popDedents rest target).2)
    else (top :: rest, [])

/-- The per-line indentation block of `scan_tokens` (lines 509-522): an
indentation increase must be a multiple of `INDENT_SIZE`; a decrease pops. -/
def processIndent (stack : List Nat) (indent_spaces : Nat) :
    Except String (List Nat × List Token) :=
  let current_indent := stack.headD 0
  if indent_spaces > current_indent then
    if (indent_spaces - current_indent) % INDENT_SIZE ≠ 0 then
      .error "Indentation must be a multiple of 4 spaces"
    else .ok (pushIndents stack indent_spaces)
  else if indent_spaces < current_indent then
    .ok (popDedents stack indent_spaces)
  else .ok (stack, [])

/-- One line of the `scan_tokens` main loop: blank lines and pure `//`
comment lines are skipped entirely; otherwise the leading-space count is fed
to the indent stack, the stripped remainder is lexed, and a NEWLINE is
appended when the line produced tokens not already ending in one. -/
def scanOneLine (stack : List Nat) (cs : List Char) :
    Except String (List Nat × List Token) :=
  let stripped := cs.dropWhile isPySpace
  match stripped with
  | [] => .ok (stack, [])
  | '/' :: '/' :: _ => .ok (stack, [])
  | _ =>
    let indent_spaces := cs.length - stripped.length
    match processIndent stack indent_spaces with
    | .error e => .error e
    | .ok (stack2, indentToks) =>
      match scanLine (stripped.length + 1) stripped [] with
      | .error e => .error e
      | .ok lineToks =>
        let lineToks2 := match lineToks.getLast? with
          | none => lineToks
          | some t =>
            if t.type = .NEWLINE then lineToks
            else lineToks ++ [Token.mk .NEWLINE .vNone]
        .ok (stack2, indentToks ++ lineToks2)

def scanAllLines : List (List Char) → List Nat → List Token →
    Except String (List Token × List Nat)
  | [], stack, acc => .ok (acc, stack)
  | line :: rest, stack, acc =>
    match scanOneLine stack line with
    | .error e => .error e
    | .ok (stack2, toks) => scanAllLines rest stack2 (acc ++ toks)

/-- Python `source.split(chr(10))` on the character list. -/
def splitLinesAux : List Char → List Char → List (List Char)
  | [], acc => [acc.reverse]
  | c :: rest, acc =>
    if c = '\n' then acc.reverse :: splitLinesAux rest []
    else splitLinesAux rest (c :: acc)

/-- The loop body of `Lexer.merge_compound_operators`, the post-pass that
merges multi-word operators left to right, always preferring the longest
match at the current position; a bare `is` becomes EQ, except when it is the
very last token.  The fuel drives Lean's structural recursion; every
recursive call is on a strictly shorter list, so any fuel above the list
length is enough and `merge_compound_operators` supplies one. -/
def mergeAux : Nat → List Token → List Token
  | 0, l => l
  | fuel + 1, l =>
    match l with
    | [] => []
    | t :: rest =>
      if t.type = .IS then
        match rest with
        | [] => [t]
        | n :: rest2 =>
          if n.type = .NOT then
            Token.mk .NE (.vStr "is not") :: mergeAux fuel rest2
          else if n.type = .IDENTIFIER ∧ n.value = .vStr "greater" then
            match rest2 with
            | m :: rest3 =>
              if m.type = .IDENTIFIER ∧ m.value = .vStr "than" then
                Token.mk .GT (.vStr "is greater than") :: mergeAux fuel rest3
              else Token.mk .EQ (.vStr "is") :: mergeAux fuel rest
            | [] => Token.mk .EQ (.vStr "is") :: mergeAux fuel rest
          else if n.type = .IDENTIFIER ∧ n.value = .vStr "less" then
            match rest2 with
            | m :: rest3 =>
              if m.type = .IDENTIFIER ∧ m.value = .vStr "than" then
                Token.mk .LT (.vStr "is less than") :: mergeAux fuel rest3
              else Token.mk .EQ (.vStr "is") :: mergeAux fuel rest
            | [] => Token.mk .EQ (.vStr "is") :: mergeAux fuel rest
          else if n.type = .IDENTIFIER ∧ n.value = .vStr "at" then
            match rest2 with
            | m :: rest3 =>
              if m.type = .IDENTIFIER ∧ m.value = .vStr "least" then
                Token.mk .GE (.vStr "is at least") :: mergeAux fuel rest3
              else if m.type = .IDENTIFIER ∧ m.value = .vStr "most" then
                Token.mk .LE (.vStr "is at most") :: mergeAux fuel rest3
              else Token.mk .EQ (.vStr "is") :: mergeAux fuel rest
            | [] => Token.mk .EQ (.vStr "is") :: mergeAux fuel rest
          else Token.mk .EQ (.vStr "is") :: mergeAux fuel rest
      else t :: mergeAux fuel rest

/-- `Lexer.merge_compound_operators`. -/
def merge_compound_operators (l : List Token) : List Token :=
  mergeAux (l.length + 1) l

/-- `tokenize` / `Lexer.scan_tokens`: split into lines, lex each line with
indentation handling, close all open indents with DEDENTs, append EOF, and
run the compound-operator merge pass. -/
def tokenize (source : String) : Except String (List Token) :=
  match scanAllLines (splitLinesAux source.toList []) [0] [] with
  | .error e => .error e
  | .ok (toks, stack) =>
    let toks := toks ++ List.replicate (stack.length - 1) (Token.mk .DEDENT (.vInt 0))
      ++ [Token.mk .EOF .vNone]
    .ok (merge_compound_operators toks)

end Lexer

/-! ## AST: `core/ast/expressions.py`, `core/ast/statements.py`

The node classes carry exactly the fields the parser fills in.  `Literal`
holds the dynamically typed scalar the lexer produced.  The statement family
is restricted to the nodes exercised by the claims (expression statements,
assignments, conditionals, loops, function definitions, returns, increase). -/

/-- Scalar literal payloads. -/
inductive LitVal where
  | num (q : Rat)
  | str (s : String)
  | bool (b : Bool)
  | null
deriving Repr, DecidableEq

inductive Expression where
  | Literal (value : LitVal)
  | Identifier (name : String)
  | GlobalVariable (name : String)
  | PropertyAccess (object : Expression) (property_name : String)
  | BinaryOperation (left : Expression) (operator : String) (right : Expression)
  | Comparison (left : Expression) (operator : String) (right : Expression)
  | LogicalOperation (left : Expression) (operator : String) (right : Expression)
  | UnaryOperation (operator : String) (operand : Expression)
  | MemberCheck (operator : String) (left : Expression) (right : Expression)
  | ListIndex (list_expr : Expression) (index : Expression)
  | ListSlice (list_expr : Expression) (start? : Option Expression) (stop? : Option Expression)
  | FunctionCall (function_name : String) (arguments : List Expression)
  | MethodCall (object : Expression) (method_name : String) (arguments : List Expression)
  | ListLiteral (elements : List Expression)
  | Grouping (expression : Expression)
deriving Repr, BEq

inductive Statement where
  | ExpressionStatement (expression : Expression)
  | Assignment (target : Expression) (value : Expression)
  | IfStatement (condition : Expression) (then_branch : List Statement)
      (elif_branches : List (Expression × List Statement))
      (else_branch : Option (List Statement))
  | WhileStatement (condition : Expression) (body : List Statement)
  | FunctionDefinition (name : String) (parameters : List String) (body : List Statement)
  | ReturnStatement (value : Option Expression)
  | IncreaseStatement (target : Expression) (amount : Expression)
deriving Repr, BEq

/-! ## Parser, expression layer: `core/parser.py`

The recursive-descent expression chain `expression → or_expr → and_expr →
not_expr → comparison → additive → multiplicative → index_access → unary →
member_check → primary` is translated function by function.  Each takes the
token list, the `current` position, and fuel (the Python code recurses on the
call stack; fuel strictly dominates the recursion depth used by any input
considered here).  Statement dispatch is outside the modelled layer. -/

namespace Parser

open Lexer

/-- `Parser.peek` with offset 0: out-of-range positions return the final
token (EOF). -/
def peekAt (tokens : List Token) (pos : Nat) : Token :=
  tokens.getD pos (tokens.getLastD (Token.mk .EOF .vNone))

/-- `Parser.check`: never matches once the cursor sits on EOF. -/
def check (tokens : List Token) (pos : Nat) (tt : TokenType) : Bool :=
  let t := peekAt tokens pos
  if t.type = .EOF then false else t.type = tt

/-- `Parser.match` over a list of candidate types: the consumed position on
success. -/
def matchT (tokens : List Token) (pos : Nat) (tts : List TokenType) : Option Nat :=
  if tts.any fun tt => check tokens pos tt then some (pos + 1) else none

/-- `Parser.consume`. -/
def consume (tokens : List Token) (pos : Nat) (tt : TokenType) (msg : String) :
    Except String (Token × Nat) :=
  if check tokens pos tt then .ok (peekAt tokens pos, pos + 1)
  else .error msg

/-- The string in a token's `value` slot (operator strings, identifier
names); non-string values never occur in those slots. -/
def tokValToString : TokVal → String
  | .vStr s => s
  | _ => ""

/-- `visit_literal`-compatible payload of a literal token. -/
def litOfTokVal : TokVal → LitVal
  | .vNum q => .num q
  | .vStr s => .str s
  | .vBool b => .bool b
  | .vInt n => .num n
  | .vNone => .null

set_option maxHeartbeats 1000000 in
mutual

/-- `Parser.expression`. -/
def expression (fuel : Nat) (tokens : List Token) (pos : Nat) :
    Except String (Expression × Nat) :=
  match fuel with
  | 0 => .error "parser fuel exhausted"
  | fuel + 1 => or_expr fuel tokens pos
termination_by structural fuel

/-- `Parser.or_expr`. -/
def or_expr (fuel : Nat) (tokens : List Token) (pos : Nat) :
    Except String (Expression × Nat) :=
  match fuel with
  | 0 => .error "parser fuel exhausted"
  | fuel + 1 => do
    let (e, pos) ← and_expr fuel tokens pos
    orLoop fuel tokens e pos
termination_by structural fuel

def orLoop (fuel : Nat) (tokens : List Token) (e : Expression) (pos : Nat) :
    Except String (Expression × Nat) :=
  match fuel with
  | 0 => .error "parser fuel exhausted"
  | fuel + 1 =>
    match matchT tokens pos [.OR] with
    | some pos2 => do
      let (right, pos3) ← and_expr fuel tokens pos2
      orLoop fuel tokens (.LogicalOperation e "or" right) pos3
    | none => .ok (e, pos)
termination_by structural fuel

/-- `Parser.and_expr`. -/
def and_expr (fuel : Nat) (tokens : List Token) (pos : Nat) :
    Except String (Expression × Nat) :=
  match fuel with
  | 0 => .error "parser fuel exhausted"
  | fuel + 1 => do
    let (e, pos) ← not_expr fuel tokens pos
    andLoop fuel tokens e pos
termination_by structural fuel

def andLoop (fuel : Nat) (tokens : List Token) (e : Expression) (pos : Nat) :
    Except String (Expression × Nat) :=
  match fuel with
  | 0 => .error "parser fuel exhausted"
  | fuel + 1 =>
    match matchT tokens pos [.AND] with
    | some pos2 => do
      let (right, pos3) ← not_expr fuel tokens pos2
      andLoop fuel tokens (.LogicalOperation e "and" right) pos3
    | none => .ok (e, pos)
termination_by structural fuel

/-- `Parser.not_expr`. -/
def not_expr (fuel : Nat) (tokens : List Token) (pos : Nat) :
    Except String (Expression × Nat) :=
  match fuel with
  | 0 => .error "parser fuel exhausted"
  | fuel + 1 =>
    match matchT tokens pos [.NOT] with
    | some pos2 => do
      let (operand, pos3) ← comparison fuel tokens pos2
      .ok (.UnaryOperation "not" operand, pos3)
    | none => comparison fuel tokens pos
termination_by structural fuel

/-- `Parser.comparison`: an `additive`, then left-associated comparison
operators, the operator string taken from the matched token's value. -/
def comparison (fuel : Nat) (tokens : List Token) (pos : Nat) :
    Except String (Expression × Nat) :=
  match fuel with
  | 0 => .error "parser fuel exhausted"
  | fuel + 1 => do
    let (e, pos) ← additive fuel tokens pos
    compLoop fuel tokens e pos
termination_by structural fuel

def compLoop (fuel : Nat) (tokens : List Token) (e : Expression) (pos : Nat) :
    Except String (Expression × Nat) :=
  match fuel with
  | 0 => .error "parser fuel exhausted"
  | fuel + 1 =>
    match matchT tokens pos [.EQ, .NE, .GT, .LT, .GE, .LE] with
    | some pos2 => do
      let op := tokValToString (peekAt tokens pos).value
      let (right, pos3) ← additive fuel tokens pos2
      compLoop fuel tokens (.Comparison e op right) pos3
    | none => .ok (e, pos)
termination_by structural fuel

/-- `Parser.additive`. -/
def additive (fuel : Nat) (tokens : List Token) (pos : Nat) :
    Except String (Expression × Nat) :=
  match fuel with
  | 0 => .error "parser fuel exhausted"
  | fuel + 1 => do
    let (e, pos) ← multiplicative fuel tokens pos
    addLoop fuel tokens e pos
termination_by structural fuel

def addLoop (fuel : Nat) (tokens : List Token) (e : Expression) (pos : Nat) :
    Except String (Expression × Nat) :=
  match fuel with
  | 0 => .error "parser fuel exhausted"
  | fuel + 1 =>
    match matchT tokens pos [.PLUS, .MINUS] with
    | some pos2 => do
      let op := if (peekAt tokens pos).type = .PLUS then "+" else "-"
      let (right, pos3) ← multiplicative fuel tokens pos2
      addLoop fuel tokens (.BinaryOperation e op right) pos3
    | none => .ok (e, pos)
termination_by structural fuel

/-- `Parser.multiplicative`. -/
def multiplicative (fuel : Nat) (tokens : List Token) (pos : Nat) :
    Except String (Expression × Nat) :=
  match fuel with
  | 0 => .error "parser fuel exhausted"
  | fuel + 1 => do
    let (e, pos) ← index_access fuel tokens pos
    mulLoop fuel tokens e pos
termination_by structural fuel

def mulLoop (fuel : Nat) (tokens : List Token) (e : Expression) (pos : Nat) :
    Except String (Expression × Nat) :=
  match fuel with
  | 0 => .error "parser fuel exhausted"
  | fuel + 1 =>
    match matchT tokens pos [.MULTIPLY, .DIVIDE, .MODULO] with
    | some pos2 => do
      let op := if (peekAt tokens pos).type = .MULTIPLY then "*"
        else if (peekAt tokens pos).type = .DIVIDE then "/" else "%"
      let (right, pos3) ← index_access fuel tokens pos2
      mulLoop fuel tokens (.BinaryOperation e op right) pos3
    | none => .ok (e, pos)
termination_by structural fuel

/-- `Parser.index_access`: postfix `[index]` and `[start:end]` suffixes. -/
def index_access (fuel : Nat) (tokens : List Token) (pos : Nat) :
    Except String (Expression × Nat) :=
  match fuel with
  | 0 => .error "parser fuel exhausted"
  | fuel + 1 => do
    let (e, pos) ← unary fuel tokens pos
    idxLoop fuel tokens e pos
termination_by structural fuel

def idxLoop (fuel : Nat) (tokens : List Token) (e : Expression) (pos : Nat) :
    Except String (Expression × Nat) :=
  match fuel with
  | 0 => .error "parser fuel exhausted"
  | fuel + 1 =>
    match matchT tokens pos [.LBRACKET] with
    | none => .ok (e, pos)
    | some pos2 =>
      match matchT tokens pos2 [.COLON] with
      | some pos3 => do
        let (stop?, pos4) ←
          if check tokens pos3 .RBRACKET then pure (none, pos3)
          else do
            let (se, pos4) ← expression fuel tokens pos3
            pure (some se, pos4)
        let (_, pos5) ← consume tokens pos4 .RBRACKET "Expected close bracket after slice"
        idxLoop fuel tokens (.ListSlice e none stop?) pos5
      | none => do
        let (start, pos3) ← expression fuel tokens pos2
        match matchT tokens pos3 [.COLON] with
        | some pos4 => do
          let (stop?, pos5) ←
            if check tokens pos4 .RBRACKET then pure (none, pos4)
            else do
              let (se, pos5) ← expression fuel tokens pos4
              pure (some se, pos5)
          let (_, pos6) ← consume tokens pos5 .RBRACKET "Expected close bracket after slice"
          idxLoop fuel tokens (.ListSlice e (some start) stop?) pos6
        | none => do
          let (_, pos4) ← consume tokens pos3 .RBRACKET "Expected close bracket after index"
          idxLoop fuel tokens (.ListIndex e start) pos4
termination_by structural fuel

/-- `Parser.unary`. -/
def unary (fuel : Nat) (tokens : List Token) (pos : Nat) :
    Except String (Expression × Nat) :=
  match fuel with
  | 0 => .error "parser fuel exhausted"
  | fuel + 1 =>
    match matchT tokens pos [.MINUS] with
    | some pos2 => do
      let (operand, pos3) ← unary fuel tokens pos2
      .ok (.UnaryOperation "-" operand, pos3)
    | none => member_check fuel tokens pos
termination_by structural fuel

/-- `Parser.member_check`: note the source's `match(IS) and match(IN)` with a
short-circuiting `and` — a bare `is` that is not followed by `in` is consumed
and dropped. -/
def member_check (fuel : Nat) (tokens : List Token) (pos : Nat) :
    Except String (Expression × Nat) :=
  match fuel with
  | 0 => .error "parser fuel exhausted"
  | fuel + 1 => do
    let (e, pos) ← primary fuel tokens pos
    match matchT tokens pos [.HAS] with
    | some pos2 => do
      let (nameTok, pos3) ← consume tokens pos2 .IDENTIFIER "Expected property name after the has keyword"
      .ok (.MemberCheck "has" e (.Identifier (tokValToString nameTok.value)), pos3)
    | none =>
      match matchT tokens pos [.IS] with
      | some pos2 =>
        match matchT tokens pos2 [.IN] with
        | some pos3 => do
          let (right, pos4) ← primary fuel tokens pos3
          .ok (.MemberCheck "is in" e right, pos4)
        | none => .ok (e, pos2)
      | none => .ok (e, pos)
termination_by structural fuel

/-- `Parser.primary`: literals, identifiers (with call and property-chain
suffixes), grouping, list literals. -/
def primary (fuel : Nat) (tokens : List Token) (pos : Nat) :
    Except String (Expression × Nat) :=
  match fuel with
  | 0 => .error "parser fuel exhausted"
  | fuel + 1 =>
    match matchT tokens pos [.BOOLEAN] with
    | some pos2 => .ok (.Literal (litOfTokVal (peekAt tokens pos).value), pos2)
    | none =>
    match matchT tokens pos [.NULL] with
    | some pos2 => .ok (.Literal .null, pos2)
    | none =>
    match matchT tokens pos [.NUMBER] with
    | some pos2 => .ok (.Literal (litOfTokVal (peekAt tokens pos).value), pos2)
    | none =>
    match matchT tokens pos [.STRING] with
    | some pos2 => .ok (.Literal (litOfTokVal (peekAt tokens pos).value), pos2)
    | none =>
    match matchT tokens pos [.GLOBAL_VAR] with
    | some pos2 => .ok (.GlobalVariable (tokValToString (peekAt tokens pos).value), pos2)
    | none =>
    match matchT tokens pos [.IDENTIFIER] with
    | some pos2 =>
      let name := tokValToString (peekAt tokens pos).value
      (match matchT tokens pos2 [.LPAREN] with
      | some pos3 => finish_call fuel tokens name pos3
      | none => propChain fuel tokens (.Identifier name) pos2)
    | none =>
    match matchT tokens pos [.LPAREN] with
    | some pos2 => do
      let (e, pos3) ← expression fuel tokens pos2
      let (_, pos4) ← consume tokens pos3 .RPAREN "Expected close paren after expression"
      .ok (.Grouping e, pos4)
    | none =>
    match matchT tokens pos [.LBRACKET] with
    | some pos2 => list_literal fuel tokens pos2
    | none => .error "Expected expression"
termination_by structural fuel

/-- The `while self.match(DOT)` property chain of `primary`; a `(` directly
after a property name turns the chain into a method call and returns. -/
def propChain (fuel : Nat) (tokens : List Token) (e : Expression) (pos : Nat) :
    Except String (Expression × Nat) :=
  match fuel with
  | 0 => .error "parser fuel exhausted"
  | fuel + 1 =>
    match matchT tokens pos [.DOT] with
    | none => .ok (e, pos)
    | some pos2 => do
      let (nameTok, pos3) ← consume tokens pos2 .IDENTIFIER "Expected property name after the dot"
      let property_name := tokValToString nameTok.value
      let e2 := Expression.PropertyAccess e property_name
      match matchT tokens pos3 [.LPAREN] with
      | some pos4 => finish_method_call fuel tokens e2 property_name pos4
      | none => propChain fuel tokens e2 pos3
termination_by structural fuel

/-- `Parser.finish_call`. -/
def finish_call (fuel : Nat) (tokens : List Token) (name : String) (pos : Nat) :
    Except String (Expression × Nat) :=
  match fuel with
  | 0 => .error "parser fuel exhausted"
  | fuel + 1 =>
    if check tokens pos .RPAREN then
      .ok (.FunctionCall name [], pos + 1)
    else do
      let (args, pos2) ← argsLoop fuel tokens [] pos
      let (_, pos3) ← consume tokens pos2 .RPAREN "Expected close paren after arguments"
      .ok (.FunctionCall name args, pos3)
termination_by structural fuel

/-- `Parser.finish_method_call`. -/
def finish_method_call (fuel : Nat) (tokens : List Token) (object : Expression)
    (method_name : String) (pos : Nat) : Except String (Expression × Nat) :=
  match fuel with
  | 0 => .error "parser fuel exhausted"
  | fuel + 1 =>
    if check tokens pos .RPAREN then
      .ok (.MethodCall object method_name [], pos + 1)
    else do
      let (args, pos2) ← argsLoop fuel tokens [] pos
      let (_, pos3) ← consume tokens pos2 .RPAREN "Expected close paren after arguments"
      .ok (.MethodCall object method_name args, pos3)
termination_by structural fuel

/-- The comma-separated argument loop shared by the two call finishers. -/
def argsLoop (fuel : Nat) (tokens : List Token) (acc : List Expression) (pos : Nat) :
    Except String (List Expression × Nat) :=
  match fuel with
  | 0 => .error "parser fuel exhausted"
  | fuel + 1 => do
    let (e, pos2) ← expression fuel tokens pos
    match matchT tokens pos2 [.COMMA] with
    | some pos3 => argsLoop fuel tokens (acc ++ [e]) pos3
    | none => .ok (acc ++ [e], pos2)
termination_by structural fuel

/-- `Parser.list_literal` (after the opening bracket). -/
def list_literal (fuel : Nat) (tokens : List Token) (pos : Nat) :
    Except String (Expression × Nat) :=
  match fuel with
  | 0 => .error "parser fuel exhausted"
  | fuel + 1 =>
    if check tokens pos .RBRACKET then
      .ok (.ListLiteral [], pos + 1)
    else do
      let (elems, pos2) ← argsLoop fuel tokens [] pos
      let (_, pos3) ← consume tokens pos2 .RBRACKET "Expected close bracket after list elements"
      .ok (.ListLiteral elems, pos3)
termination_by structural fuel
end

end Parser

/-! ## Interpreter: `core/interpreter_impl/environment.py`,
`core/interpreter_impl/evaluator.py`, list builtins of `stdlib/builtins.py`

Python `HList` objects are heap references: scripts can alias them and
`Operations.list_set` mutates them in place.  The model therefore gives the
evaluator an explicit store of lists; a runtime value is either a scalar, a
reference into that store, or a `FunctionDefinition` AST node (the evaluator
stores user functions directly in the variable environment).

The environment chain is the list of `variables` dicts of the Python
`Environment` objects, innermost first; the root's `globals` dict is kept
separately (all global reads and writes tunnel to the root).  A function call
pushes a frame and pops it in the `finally` block, on errors too.

Evaluation is fuelled: the fuel bounds call depth, loop iterations, copy
depth and payload-comparison depth; exhausting it yields an error, which no
theorem below identifies with a source-level error.  The modelled statement
family and builtin table (`sort`, `reverse`, `append`, `removeAt`) are the
fragments the claims exercise. -/

namespace Interp

/-- Runtime values of the evaluator: payload scalars, a list reference into
the store, or a stored `FunctionDefinition`. -/
inductive Value where
  | VNumber (v : Rat)
  | VString (s : String)
  | VBoolean (b : Bool)
  | VNull
  | VList (addr : Nat)
  | VFuncDef (name : String) (parameters : List String) (body : List Statement)
deriving Repr, BEq

/-- One `Environment.variables` dict, as an association list with unique
keys. -/
abbrev Frame := List (String × Value)

/-- The heap of `HList` objects: address to current element list. -/
abbrev Store := List (List Value)

structure State where
  frames : List Frame
  globals : Frame
  store : Store
deriving Repr

def lookupFrame (f : Frame) (name : String) : Option Value :=
  (f.find? fun p => p.1 == name).map Prod.snd

/-- Python dict assignment `d[name] = v`: update the existing key or insert. -/
def frameSet : Frame → String → Value → Frame
  | [], n, v => [(n, v)]
  | (k, w) :: rest, n, v =>
    if k = n then (k, v) :: rest else (k, w) :: frameSet rest n v

/-- `Environment.define`: write into the current (innermost) scope. -/
def define (fs : List Frame) (name : String) (v : Value) : List Frame :=
  match fs with
  | [] => []
  | f :: rest => frameSet f name v :: rest

/-- `Environment.get`: the innermost binding along the chain. -/
def getVar : List Frame → String → Option Value
  | [], _ => none
  | f :: rest, n =>
    match lookupFrame f n with
    | some v => some v
    | none => getVar rest n

/-- `Environment.assign`: update the innermost scope that binds the name;
`none` when no scope does (Python `KeyError`). -/
def assignVar : List Frame → String → Value → Option (List Frame)
  | [], _, _ => none
  | f :: rest, n, v =>
    if (lookupFrame f n).isSome then some (frameSet f n v :: rest)
    else
      match assignVar rest n v with
      | some rest2 => some (f :: rest2)
      | none => none

/-- `Environment.exists`. -/
def existsVar (fs : List Frame) (name : String) : Bool :=
  fs.any fun f => (lookupFrame f name).isSome

def storeGet (store : Store) (addr : Nat) : List Value := store.getD addr []

/-- Allocate a fresh `HList` object. -/
def alloc (store : Store) (elems : List Value) : Value × Store :=
  (.VList store.length, store ++ [elems])

mutual
/-- `HValue.copy`: scalars copy to equal scalars; a list copies each element
deeply into a fresh object; a `FunctionDefinition` has no `copy` method. -/
def copyValue (fuel : Nat) (store : Store) : Value → Except String (Value × Store)
  | .VList addr =>
    match fuel with
    | 0 => .error "copy fuel exhausted"
    | fuel + 1 => do
      let (elems2, store2) ← copyList fuel store (storeGet store addr)
      pure (alloc store2 elems2)
  | .VFuncDef .. => .error "FunctionDefinition has no copy"
  | v => .ok (v, store)

def copyList (fuel : Nat) (store : Store) : List Value → Except String (List Value × Store)
  | [] => .ok ([], store)
  | v :: rest =>
    match fuel with
    | 0 => .error "copy fuel exhausted"
    | fuel + 1 => do
      let (v2, store2) ← copyValue fuel store v
      let (rest2, store3) ← copyList fuel store2 rest
      pure (v2 :: rest2, store3)
end

/-- `is_truthy` on a stored value; a `FunctionDefinition` (not an `HValue`)
has no such method, so using it as a condition is a runtime error. -/
def truthyV (store : Store) : Value → Except String Bool
  | .VNumber v => .ok (v != 0)
  | .VString s => .ok (s.length > 0)
  | .VBoolean b => .ok b
  | .VNull => .ok false
  | .VList addr => .ok ((storeGet store addr).length > 0)
  | .VFuncDef .. => .error "FunctionDefinition has no is_truthy"

mutual
/-- `HValue.__eq__` on stored values, dereferencing list payloads (Python
compares the underlying lists elementwise).  Two stored function definitions
compare as dataclasses, i.e. structurally; a function definition never equals
an `HValue`. -/
def pyEqV (fuel : Nat) (store : Store) : Value → Value → Except String Bool
  | .VNumber x, .VNumber y => .ok (x == y)
  | .VNumber x, .VBoolean b => .ok (x == boolRat b)
  | .VBoolean a, .VNumber y => .ok (boolRat a == y)
  | .VBoolean a, .VBoolean b => .ok (a == b)
  | .VString s, .VString t => .ok (s == t)
  | .VNull, .VNull => .ok true
  | .VList a, .VList b =>
    match fuel with
    | 0 => .error "comparison fuel exhausted"
    | fuel + 1 => pyEqListV fuel store (storeGet store a) (storeGet store b)
  | .VFuncDef n p b, .VFuncDef n2 p2 b2 => .ok (n == n2 && p == p2 && b == b2)
  | _, _ => .ok false

def pyEqListV (fuel : Nat) (store : Store) : List Value → List Value → Except String Bool
  | [], [] => .ok true
  | x :: xs, y :: ys =>
    match fuel with
    | 0 => .error "comparison fuel exhausted"
    | fuel + 1 => do
      let e ← pyEqV fuel store x y
      if e then pyEqListV fuel store xs ys else pure false
  | _, _ => .ok false
end

/-- A slot of a literal AST node, as an evaluator value (`visit_literal`). -/
def litToValue : LitVal → Value
  | .num q => .VNumber q
  | .str s => .VString s
  | .bool b => .VBoolean b
  | .null => .VNull

/-! Value-level arithmetic and comparison, following `operations.py`. -/

/-- `HList.append` on the store: deep-copy the elements (`self.copy()`), add
the new element (itself shared, not copied), allocate the result. -/
def appendS (fuel : Nat) (store : Store) (addr : Nat) (element : Value) :
    Except String (Value × Store) := do
  let (elems2, store2) ← copyList fuel store (storeGet store addr)
  pure (alloc store2 (elems2 ++ [element]))

/-- `Operations.add`. -/
def addV (fuel : Nat) (store : Store) : Value → Value → Except String (Value × Store)
  | .VNumber x, .VNumber y => .ok (.VNumber (x + y), store)
  | .VString s, .VString t => .ok (.VString (s ++ t), store)
  | .VList addr, right => appendS fuel store addr right
  | _, _ => .error "Cannot add these operands"

/-- `Operations.subtract`. -/
def subtractV : Value → Value → Except String Value
  | .VNumber x, .VNumber y => .ok (.VNumber (x - y))
  | _, _ => .error "Cannot subtract these operands"

/-- `Operations.multiply`. -/
def multiplyV : Value → Value → Except String Value
  | .VNumber x, .VNumber y => .ok (.VNumber (x * y))
  | _, _ => .error "Cannot multiply these operands"

/-- `Operations.divide`; `HNumber.__truediv__` raises on a zero divisor. -/
def divideV : Value → Value → Except String Value
  | .VNumber x, .VNumber y =>
    if y == 0 then .error "Division by zero" else .ok (.VNumber (x / y))
  | _, _ => .error "Cannot divide these operands"

/-- Python `%` on floats: the remainder takes the divisor's sign. -/
def pyMod (x y : Rat) : Rat := x - y * ((x / y).floor : Int)

/-- `Operations.modulo`; `HNumber.__mod__` raises on a zero divisor. -/
def moduloV : Value → Value → Except String Value
  | .VNumber x, .VNumber y =>
    if y == 0 then .error "Modulo by zero" else .ok (.VNumber (pyMod x y))
  | _, _ => .error "Cannot modulo these operands"

/-- `Operations.greater_than`: numbers or strings only. -/
def greaterV : Value → Value → Except String Value
  | .VNumber x, .VNumber y => .ok (.VBoolean (decide (x > y)))
  | .VString s, .VString t => .ok (.VBoolean (decide (s > t)))
  | _, _ => .error "Cannot compare these operands"

/-- `Operations.less_than`. -/
def lessV : Value → Value → Except String Value
  | .VNumber x, .VNumber y => .ok (.VBoolean (decide (x < y)))
  | .VString s, .VString t => .ok (.VBoolean (decide (s < t)))
  | _, _ => .error "Cannot compare these operands"

/-- `Operations.greater_equal`. -/
def geV : Value → Value → Except String Value
  | .VNumber x, .VNumber y => .ok (.VBoolean (decide (x ≥ y)))
  | .VString s, .VString t => .ok (.VBoolean (decide (s ≥ t)))
  | _, _ => .error "Cannot compare these operands"

/-- `Operations.less_equal`. -/
def leV : Value → Value → Except String Value
  | .VNumber x, .VNumber y => .ok (.VBoolean (decide (x ≤ y)))
  | .VString s, .VString t => .ok (.VBoolean (decide (s ≤ t)))
  | _, _ => .error "Cannot compare these operands"

/-- The `COMPARISON_OPERATORS` dispatch table keyed by operator string. -/
def compareV (fuel : Nat) (store : Store) (op : String) (l r : Value) :
    Except String Value :=
  if op = "is" ∨ op = "==" then do
    let b ← pyEqV fuel store l r
    pure (.VBoolean b)
  else if op = "is not" ∨ op = "!=" then do
    let b ← pyEqV fuel store l r
    pure (.VBoolean (! b))
  else if op = "is greater than" ∨ op = ">" then greaterV l r
  else if op = "is less than" ∨ op = "<" then lessV l r
  else if op = "is at least" ∨ op = ">=" then geV l r
  else if op = "is at most" ∨ op = "<=" then leV l r
  else .error ("Unknown comparison operator: " ++ op)

/-- `Operations.negate`. -/
def negateV : Value → Except String Value
  | .VNumber x => .ok (.VNumber (-x))
  | _ => .error "Cannot negate this operand"

/-- `Operations.get_property`: `length` on lists and strings. -/
def get_propertyV (store : Store) (v : Value) (property_name : String) :
    Except String Value :=
  match v with
  | .VList addr =>
    if property_name = "length" then .ok (.VNumber ((storeGet store addr).length : Nat))
    else .error ("list has no property " ++ property_name)
  | .VString s =>
    if property_name = "length" then .ok (.VNumber (s.length : Nat))
    else .error ("string has no property " ++ property_name)
  | _ => .error ("value has no property " ++ property_name)

/-- `HList.get_element` on the store. -/
def get_elementS (store : Store) (addr : Nat) (index : Int) : Except String Value :=
  let elems := storeGet store addr
  let i := if index < 0 then (elems.length : Int) + index else index
  if i < 0 ∨ (elems.length : Int) ≤ i then .error "List index out of range"
  else .ok (elems.getD i.toNat .VNull)

/-- `Operations.list_index` on stored values. -/
def list_indexV (store : Store) (lst index : Value) : Except String Value :=
  match lst with
  | .VList addr =>
    match index with
    | .VNumber q =>
      if ! HNumber.is_integer q then .error "List index must be an integer"
      else get_elementS store addr (HNumber.to_int q)
    | _ => .error "List index must be a number"
  | _ => .error "Cannot index this value"

/-- `HList.get_slice` on the store: allocates the new list, sharing the
selected elements. -/
def get_sliceS (store : Store) (addr : Nat) (start? stop? : Option Int) :
    Value × Store :=
  alloc store (pySlice (storeGet store addr) start? stop?)

/-- `Operations.list_slice` on stored values. -/
def list_sliceV (store : Store) (lst : Value) (start? stop? : Option Value) :
    Except String (Value × Store) :=
  match lst with
  | .VList addr => do
    let start_idx : Option Int ← match start? with
      | none => pure none
      | some (.VNumber q) =>
        if ! HNumber.is_integer q then .error "Slice start must be an integer"
        else pure (some (HNumber.to_int q))
      | some _ => .error "Slice start must be a number"
    let end_idx : Option Int ← match stop? with
      | none => pure none
      | some (.VNumber q) =>
        if ! HNumber.is_integer q then .error "Slice end must be an integer"
        else pure (some (HNumber.to_int q))
      | some _ => .error "Slice end must be a number"
    pure (get_sliceS store addr start_idx end_idx)
  | _ => .error "Cannot slice this value"

/-- `HList.set_element`: in-place update of the stored list. -/
def set_elementS (store : Store) (addr : Nat) (index : Int) (v : Value) :
    Except String Store :=
  let elems := storeGet store addr
  let i := if index < 0 then (elems.length : Int) + index else index
  if i < 0 ∨ (elems.length : Int) ≤ i then .error "List index out of range"
  else .ok (store.set addr (elems.set i.toNat v))

/-- `Operations.list_set`: the in-place indexed assignment. -/
def list_setV (store : Store) (lst index value : Value) : Except String Store :=
  match lst with
  | .VList addr =>
    match index with
    | .VNumber q =>
      if ! HNumber.is_integer q then .error "List index must be an integer"
      else set_elementS store addr (HNumber.to_int q) value
    | _ => .error "List index must be a number"
  | _ => .error "Cannot index assign to this value"

/-- `HList.remove_at`: bounds-check against the original, deep-copy, delete. -/
def remove_atS (fuel : Nat) (store : Store) (addr : Nat) (index : Int) :
    Except String (Value × Store) :=
  let elems := storeGet store addr
  let i := if index < 0 then (elems.length : Int) + index else index
  if i < 0 ∨ (elems.length : Int) ≤ i then .error "List index out of range"
  else do
    let (elems2, store2) ← copyList fuel store elems
    pure (alloc store2 (elems2.eraseIdx i.toNat))

/-- `HList.reverse`: a fresh list of the same element objects, reversed. -/
def reverseS (store : Store) (addr : Nat) : Value × Store :=
  alloc store (storeGet store addr).reverse

/-- `HValue.__lt__` between two element objects inside compared list keys:
only `HNumber.__lt__` (or the reflected `HNumber.__gt__` with a boolean)
exists; every other pairing is a `TypeError`, caught by `HList.sort`. -/
def pyElemLt : Value → Value → Except String Bool
  | .VNumber x, .VNumber y => .ok (decide (x < y))
  | .VNumber x, .VBoolean b => .ok (decide (x < boolRat b))
  | .VBoolean a, .VNumber y => .ok (decide (boolRat a < y))
  | _, _ => .error "Cannot sort list with mixed types"

mutual
/-- Python `<` on the sort keys (`x.value` payloads): numbers, booleans and
strings are ordered; two list payloads compare lexicographically through
`HValue.__eq__` and `HValue.__lt__`; anything else is a `TypeError`. -/
def pyKeyLt (fuel : Nat) (store : Store) : Value → Value → Except String Bool
  | .VNumber x, .VNumber y => .ok (decide (x < y))
  | .VNumber x, .VBoolean b => .ok (decide (x < boolRat b))
  | .VBoolean a, .VNumber y => .ok (decide (boolRat a < y))
  | .VBoolean a, .VBoolean b => .ok (decide (boolRat a < boolRat b))
  | .VString s, .VString t => .ok (decide (s < t))
  | .VList a, .VList b =>
    match fuel with
    | 0 => .error "comparison fuel exhausted"
    | fuel + 1 => pyListLt fuel store (storeGet store a) (storeGet store b)
  | _, _ => .error "Cannot sort list with mixed types"

/-- Python `list.__lt__`: the first non-equal pair decides; a strict prefix
is smaller. -/
def pyListLt (fuel : Nat) (store : Store) : List Value → List Value → Except String Bool
  | [], [] => .ok false
  | [], _ :: _ => .ok true
  | _ :: _, [] => .ok false
  | x :: xs, y :: ys =>
    match fuel with
    | 0 => .error "comparison fuel exhausted"
    | fuel + 1 => do
      let e ← pyEqV fuel store x y
      if e then pyListLt fuel store xs ys else pyElemLt x y
end

/-- Stable insertion of one element into an already sorted run, with the key
order of `sorted(..., reverse=descending)`. -/
def insortInsert (fuel : Nat) (store : Store) (desc : Bool) (x : Value) :
    List Value → Except String (List Value)
  | [] => .ok [x]
  | y :: ys => do
    let c ← if desc then pyKeyLt fuel store y x else pyKeyLt fuel store x y
    if c then pure (x :: y :: ys)
    else do
      let r ← insortInsert fuel store desc x ys
      pure (y :: r)

/-- Stable sort by payload keys.  CPython's sort may compare different pairs
of keys, but it yields the same ordering and raises exactly when two
incomparable keys meet in a comparison. -/
def insortAll (fuel : Nat) (store : Store) (desc : Bool) (acc : List Value) :
    List Value → Except String (List Value)
  | [] => .ok acc
  | x :: rest => do
    let acc2 ← insortInsert fuel store desc x acc
    insortAll fuel store desc acc2 rest

/-- `HList.sort`: `sorted(self.value, key=lambda x: x.value, reverse=desc)`
wrapped in a fresh list object sharing the elements. -/
def sortS (fuel : Nat) (store : Store) (addr : Nat) (desc : Bool) :
    Except String (Value × Store) := do
  let elems2 ← insortAll fuel store desc [] (storeGet store addr)
  pure (alloc store elems2)

/-- `StdlibActions.increase_by`. -/
def increase_by (current amount : Value) : Except String Value :=
  match current with
  | .VNumber x =>
    match amount with
    | .VNumber y => .ok (.VNumber (x + y))
    | _ => .error "Increase amount must be a number"
  | _ => .error "Cannot increase non-number"

/-- The names the modelled builtin table contains (list functions of
`stdlib/builtins.py`). -/
def builtinNames : List String := ["sort", "reverse", "append", "removeAt"]

/-- The native functions behind `builtinNames`, with the argument checks of
`stdlib/builtins.py`; a call with the wrong argument count is a host-level
`TypeError`, surfaced as a runtime error. -/
def callBuiltin (fuel : Nat) (store : Store) (name : String) (args : List Value) :
    Except String (Value × Store) :=
  if name = "append" then
    match args with
    | [lst, element] =>
      match lst with
      | .VList addr => appendS fuel store addr element
      | _ => .error "append() requires list as first argument"
    | _ => .error "append() argument count mismatch"
  else if name = "removeAt" then
    match args with
    | [lst, index] =>
      match lst with
      | .VList addr =>
        match index with
        | .VNumber q => remove_atS fuel store addr (HNumber.to_int q)
        | _ => .error "removeAt() index must be a number"
      | _ => .error "removeAt() requires list as first argument"
    | _ => .error "removeAt() argument count mismatch"
  else if name = "sort" then
    match args with
    | [lst] =>
      match lst with
      | .VList addr => sortS fuel store addr false
      | _ => .error "sort() requires list argument"
    | [lst, d] =>
      match lst with
      | .VList addr =>
        match d with
        | .VBoolean b => sortS fuel store addr b
        | _ => .error "sort() descending must be a boolean"
      | _ => .error "sort() requires list argument"
    | _ => .error "sort() argument count mismatch"
  else if name = "reverse" then
    match args with
    | [lst] =>
      match lst with
      | .VList addr => .ok (reverseS store addr)
      | _ => .error "reverse() requires list argument"
    | _ => .error "reverse() argument count mismatch"
  else .error ("Unknown built-in function: " ++ name)

/-- Does the second list start with the first? -/
def listStartsWith : List Char → List Char → Bool
  | [], _ => true
  | _ :: _, [] => false
  | a :: as, b :: bs => a == b && listStartsWith as bs

/-- Contiguous-subsequence containment on character lists. -/
def listContainsSeq (sub : List Char) : List Char → Bool
  | [] => sub.isEmpty
  | b :: rest => listStartsWith sub (b :: rest) || listContainsSeq sub rest

/-- Substring containment, Python `sub in s`. -/
def strContainsSub (s sub : String) : Bool := listContainsSeq sub.toList s.toList

/-- Python `str(payload)` for the payloads with an exactly representable
text: strings, booleans, `None`, and integral floats (`str(1.0) = "1.0"`).
The shortest-round-trip repr of a non-integral float and the nested repr of
lists and AST nodes lie outside the rational value model; no theorem below
evaluates them. -/
def pyStrPayload : Value → Except String String
  | .VString s => .ok s
  | .VBoolean b => .ok (if b then "True" else "False")
  | .VNull => .ok "None"
  | .VNumber q =>
    if HNumber.is_integer q then .ok (toString (HNumber.to_int q) ++ ".0")
    else .error "float repr is outside the model"
  | _ => .error "object repr is outside the model"

/-- The element loop of `Operations.has` on a list: an element matches when
it is a string equal to the name, or when `str` of its payload equals it. -/
def hasLoop (p : String) : List Value → Except String Bool
  | [] => .ok false
  | elem :: rest =>
    if (match elem with | .VString s => s == p | _ => false) then .ok true
    else do
      let r ← pyStrPayload elem
      if r == p then .ok true else hasLoop p rest

/-- `Operations.has`: list membership by name, substring test on strings,
`False` for everything else. -/
def hasV (store : Store) (obj : Value) (property_name : String) :
    Except String Bool :=
  match obj with
  | .VList addr => hasLoop property_name (storeGet store addr)
  | .VString s => .ok (strContainsSub s property_name)
  | _ => .ok false

/-- `HList.contains`: scan by `HValue.__eq__`. -/
def containsLoop (fuel : Nat) (store : Store) (element : Value) :
    List Value → Except String Bool
  | [] => .ok false
  | elem :: rest => do
    let e ← pyEqV fuel store elem element
    if e then pure true else containsLoop fuel store element rest

/-- `Operations.is_in`: list containment by value equality, or substring
containment for a string in a string; anything else is an error. -/
def is_inV (fuel : Nat) (store : Store) (element container : Value) :
    Except String Bool :=
  match container with
  | .VList addr => containsLoop fuel store element (storeGet store addr)
  | .VString s =>
    match element with
    | .VString e => .ok (strContainsSub s e)
    | _ => .error "Cannot check membership in this value"
  | _ => .error "Cannot check membership in this value"

def isFuncDefV : Value → Bool
  | .VFuncDef .. => true
  | _ => false

/-- Outcome of an expression evaluation (`ok`) or of a raised runtime error
(`err`); errors carry the state because the Python environment objects
survive the exception. -/
inductive Res (α : Type) where
  | ok (v : α) (st : State)
  | err (msg : String) (st : State)
deriving Repr

/-- Outcome of a statement: fall-through, a `ReturnException`, or an error. -/
inductive ExecRes where
  | norm (st : State)
  | ret (v : Value) (st : State)
  | err (msg : String) (st : State)
deriving Repr

mutual

/-- The expression half of `Evaluator` (`visit_literal` … `visit_grouping`),
one case per `visit_*` method, dispatching exactly as the source does. -/
def evalExpr (fuel : Nat) (st : State) (e : Expression) : Res Value :=
  match fuel with
  | 0 => .err "evaluation fuel exhausted" st
  | fuel + 1 =>
    match e with
    | .Literal v => .ok (litToValue v) st
    | .Identifier name =>
      match getVar st.frames name with
      | some v => .ok v st
      | none => .err ("Undefined variable: " ++ name) st
    | .GlobalVariable name =>
      match lookupFrame st.globals name with
      | some v => .ok v st
      | none => .err ("Undefined global variable: " ++ name) st
    | .PropertyAccess objExpr prop =>
      match evalExpr fuel st objExpr with
      | .err m st1 => .err m st1
      | .ok ov st1 =>
        match get_propertyV st1.store ov prop with
        | .ok v => .ok v st1
        | .error m => .err m st1
    | .BinaryOperation l op r =>
      match evalExpr fuel st l with
      | .err m st1 => .err m st1
      | .ok lv st1 =>
        match evalExpr fuel st1 r with
        | .err m st2 => .err m st2
        | .ok rv st2 =>
          if op = "+" then
            match addV fuel st2.store lv rv with
            | .ok (v, store2) => .ok v { st2 with store := store2 }
            | .error m => .err m st2
          else if op = "-" then
            match subtractV lv rv with
            | .ok v => .ok v st2
            | .error m => .err m st2
          else if op = "*" then
            match multiplyV lv rv with
            | .ok v => .ok v st2
            | .error m => .err m st2
          else if op = "/" then
            match divideV lv rv with
            | .ok v => .ok v st2
            | .error m => .err m st2
          else if op = "%" then
            match moduloV lv rv with
            | .ok v => .ok v st2
            | .error m => .err m st2
          else .err ("Unknown binary operator: " ++ op) st2
    | .Comparison l op r =>
      match evalExpr fuel st l with
      | .err m st1 => .err m st1
      | .ok lv st1 =>
        match evalExpr fuel st1 r with
        | .err m st2 => .err m st2
        | .ok rv st2 =>
          match compareV fuel st2.store op lv rv with
          | .ok v => .ok v st2
          | .error m => .err m st2
    | .LogicalOperation l op r =>
      match evalExpr fuel st l with
      | .err m st1 => .err m st1
      | .ok lv st1 =>
        if op = "and" then
          match truthyV st1.store lv with
          | .error m => .err m st1
          | .ok t =>
            if ! t then .ok (.VBoolean false) st1
            else
              match evalExpr fuel st1 r with
              | .err m st2 => .err m st2
              | .ok rv st2 =>
                match truthyV st2.store rv with
                | .error m => .err m st2
                | .ok rt => .ok (.VBoolean rt) st2
        else if op = "or" then
          match truthyV st1.store lv with
          | .error m => .err m st1
          | .ok t =>
            if t then .ok (.VBoolean true) st1
            else
              match evalExpr fuel st1 r with
              | .err m st2 => .err m st2
              | .ok rv st2 =>
                match truthyV st2.store rv with
                | .error m => .err m st2
                | .ok rt => .ok (.VBoolean rt) st2
        else .err ("Unknown logical operator: " ++ op) st1
    | .UnaryOperation op operand =>
      match evalExpr fuel st operand with
      | .err m st1 => .err m st1
      | .ok v st1 =>
        if op = "-" then
          match negateV v with
          | .ok v2 => .ok v2 st1
          | .error m => .err m st1
        else if op = "not" then
          match truthyV st1.store v with
          | .ok t => .ok (.VBoolean (! t)) st1
          | .error m => .err m st1
        else .err ("Unknown unary operator: " ++ op) st1
    | .MemberCheck op l r =>
      match evalExpr fuel st l with
      | .err m st1 => .err m st1
      | .ok lv st1 =>
        match evalExpr fuel st1 r with
        | .err m st2 => .err m st2
        | .ok rv st2 =>
          if op = "has" then
            match rv with
            | .VString s =>
              match hasV st2.store lv s with
              | .ok b => .ok (.VBoolean b) st2
              | .error m => .err m st2
            | _ => .err "The has operator requires a string property name" st2
          else if op = "is in" then
            match is_inV fuel st2.store lv rv with
            | .ok b => .ok (.VBoolean b) st2
            | .error m => .err m st2
          else .err ("Unknown member check operator: " ++ op) st2
    | .ListIndex lexpr iexpr =>
      match evalExpr fuel st lexpr with
      | .err m st1 => .err m st1
      | .ok lv st1 =>
        match evalExpr fuel st1 iexpr with
        | .err m st2 => .err m st2
        | .ok iv st2 =>
          match list_indexV st2.store lv iv with
          | .ok v => .ok v st2
          | .error m => .err m st2
    | .ListSlice lexpr s? e? =>
      match evalExpr fuel st lexpr with
      | .err m st1 => .err m st1
      | .ok lv st1 =>
        match evalOpt fuel st1 s? with
        | .err m st2 => .err m st2
        | .ok sv st2 =>
          match evalOpt fuel st2 e? with
          | .err m st3 => .err m st3
          | .ok ev st3 =>
            match list_sliceV st3.store lv sv ev with
            | .ok (v, store2) => .ok v { st3 with store := store2 }
            | .error m => .err m st3
    | .FunctionCall name args =>
      if builtinNames.contains name then
        match evalArgs fuel st args with
        | .err m st1 => .err m st1
        | .ok vals st1 =>
          match callBuiltin fuel st1.store name vals with
          | .ok (v, store2) => .ok v { st1 with store := store2 }
          | .error m => .err m st1
      else
        match getVar st.frames name with
        | none => .err ("Undefined function: " ++ name) st
        | some (.VFuncDef fname params body) => callFunction fuel st fname params body args
        | some _ => .err ("'" ++ name ++ "' is not a function") st
    | .MethodCall objExpr mname args =>
      match evalExpr fuel st objExpr with
      | .err m st1 => .err m st1
      | .ok ov st1 =>
        match ov with
        | .VList addr =>
          if mname = "append" then
            match args with
            | [a] =>
              match evalExpr fuel st1 a with
              | .err m st2 => .err m st2
              | .ok elem st2 =>
                match appendS fuel st2.store addr elem with
                | .ok (v, store2) => .ok v { st2 with store := store2 }
                | .error m => .err m st2
            | _ => .err "append() takes exactly 1 argument" st1
          else if mname = "removeAt" then
            match args with
            | [a] =>
              match evalExpr fuel st1 a with
              | .err m st2 => .err m st2
              | .ok iv st2 =>
                match iv with
                | .VNumber q =>
                  match remove_atS fuel st2.store addr (HNumber.to_int q) with
                  | .ok (v, store2) => .ok v { st2 with store := store2 }
                  | .error m => .err m st2
                | _ => .err "removeAt() index must be a number" st2
            | _ => .err "removeAt() takes exactly 1 argument" st1
          else .err ("'" ++ mname ++ "' is not a method of this value") st1
        | .VString s =>
          if mname = "upper" then .ok (.VString s.toUpper) st1
          else if mname = "lower" then .ok (.VString s.toLower) st1
          else if mname = "trim" then .ok (.VString s.trim) st1
          else .err ("'" ++ mname ++ "' is not a method of this value") st1
        | _ => .err ("'" ++ mname ++ "' is not a method of this value") st1
    | .ListLiteral elems =>
      match evalArgs fuel st elems with
      | .err m st1 => .err m st1
      | .ok vals st1 =>
        if vals.any isFuncDefV then
          .err "Cannot convert this value to an HValue" st1
        else
          let (v, store2) := alloc st1.store vals
          .ok v { st1 with store := store2 }
    | .Grouping inner => evalExpr fuel st inner

/-- Sequential evaluation of an argument list (`[arg.accept(self) ...]`). -/
def evalArgs (fuel : Nat) (st : State) (es : List Expression) : Res (List Value) :=
  match fuel with
  | 0 => .err "evaluation fuel exhausted" st
  | fuel + 1 =>
    match es with
    | [] => .ok [] st
    | e :: rest =>
      match evalExpr fuel st e with
      | .err m st1 => .err m st1
      | .ok v st1 =>
        match evalArgs fuel st1 rest with
        | .err m st2 => .err m st2
        | .ok vs st2 => .ok (v :: vs) st2

/-- Evaluation of an optional slice bound. -/
def evalOpt (fuel : Nat) (st : State) (e? : Option Expression) : Res (Option Value) :=
  match fuel with
  | 0 => .err "evaluation fuel exhausted" st
  | fuel + 1 =>
    match e? with
    | none => .ok none st
    | some e =>
      match evalExpr fuel st e with
      | .err m st1 => .err m st1
      | .ok v st1 => .ok (some v) st1

/-- `Evaluator._call_function`: arity check, arguments evaluated in the
caller's environment and bound into a fresh child scope of the caller (the
call site, not the definition site), environment swap, body execution, and
restoration of the caller's environment in a `finally` — also when an error
propagates.  A body that falls through returns `HNull`. -/
def callFunction (fuel : Nat) (st : State) (fname : String) (params : List String)
    (body : List Statement) (args : List Expression) : Res Value :=
  match fuel with
  | 0 => .err "evaluation fuel exhausted" st
  | fuel + 1 =>
    if args.length ≠ params.length then
      .err ("Function " ++ fname ++ " called with a wrong number of arguments") st
    else
      match evalArgs fuel st args with
      | .err m st1 => .err m st1
      | .ok vals st1 =>
        let newFrame := (params.zip vals).foldl (fun f pv => frameSet f pv.1 pv.2) []
        let st2 := { st1 with frames := newFrame :: st1.frames }
        match execStmts fuel st2 body with
        | .norm st3 => .ok .VNull { st3 with frames := st3.frames.tail }
        | .ret v st3 => .ok v { st3 with frames := st3.frames.tail }
        | .err m st3 => .err m { st3 with frames := st3.frames.tail }

/-- The statement half of `Evaluator` (`visit_expression_statement` …
`visit_increase_statement`). -/
def execStmt (fuel : Nat) (st : State) (s : Statement) : ExecRes :=
  match fuel with
  | 0 => .err "evaluation fuel exhausted" st
  | fuel + 1 =>
    match s with
    | .ExpressionStatement e =>
      match evalExpr fuel st e with
      | .ok _ st1 => .norm st1
      | .err m st1 => .err m st1
    | .Assignment target value =>
      match evalExpr fuel st value with
      | .err m st1 => .err m st1
      | .ok v st1 =>
        match target with
        | .Identifier name =>
          if existsVar st1.frames name then
            match assignVar st1.frames name v with
            | some fs => .norm { st1 with frames := fs }
            | none => .err ("Undefined variable: " ++ name) st1
          else .norm { st1 with frames := define st1.frames name v }
        | .GlobalVariable name => .norm { st1 with globals := frameSet st1.globals name v }
        | .PropertyAccess objExpr _ =>
          match evalExpr fuel st1 objExpr with
          | .err m st2 => .err m st2
          | .ok _ st2 => .err "Cannot set property on this value" st2
        | .ListIndex lexpr iexpr =>
          match evalExpr fuel st1 lexpr with
          | .err m st2 => .err m st2
          | .ok lv st2 =>
            match evalExpr fuel st2 iexpr with
            | .err m st3 => .err m st3
            | .ok iv st3 =>
              match list_setV st3.store lv iv v with
              | .ok store2 => .norm { st3 with store := store2 }
              | .error m => .err m st3
        | _ => .err "Invalid assignment target" st1
    | .IfStatement c tb elifs eb =>
      match evalExpr fuel st c with
      | .err m st1 => .err m st1
      | .ok cv st1 =>
        match truthyV st1.store cv with
        | .error m => .err m st1
        | .ok t =>
          if t then execStmts fuel st1 tb
          else execElifs fuel st1 elifs eb
    | .WhileStatement c body => whileLoop fuel st c body
    | .FunctionDefinition name ps body =>
      .norm { st with frames := define st.frames name (.VFuncDef name ps body) }
    | .ReturnStatement v? =>
      match v? with
      | none => .ret .VNull st
      | some e =>
        match evalExpr fuel st e with
        | .err m st1 => .err m st1
        | .ok v st1 => .ret v st1
    | .IncreaseStatement target amount =>
      match evalExpr fuel st amount with
      | .err m st1 => .err m st1
      | .ok av st1 =>
        match target with
        | .Identifier name =>
          match getVar st1.frames name with
          | none => .err ("Undefined variable: " ++ name) st1
          | some cur =>
            match increase_by cur av with
            | .error m => .err m st1
            | .ok v2 =>
              match assignVar st1.frames name v2 with
              | some fs => .norm { st1 with frames := fs }
              | none => .err ("Undefined variable: " ++ name) st1
        | .GlobalVariable name =>
          match lookupFrame st1.globals name with
          | none => .err ("Undefined global variable: " ++ name) st1
          | some cur =>
            match increase_by cur av with
            | .error m => .err m st1
            | .ok v2 => .norm { st1 with globals := frameSet st1.globals name v2 }
        | .PropertyAccess objExpr prop =>
          match evalExpr fuel st1 objExpr with
          | .err m st2 => .err m st2
          | .ok ov st2 =>
            match get_propertyV st2.store ov prop with
            | .error m => .err m st2
            | .ok cur =>
              match increase_by cur av with
              | .error m => .err m st2
              | .ok _ => .err "Cannot set property on this value" st2
        | _ => .err "Invalid increase target" st1

/-- The elif scan of `visit_if_statement`, ending in the optional else. -/
def execElifs (fuel : Nat) (st : State) (elifs : List (Expression × List Statement))
    (eb : Option (List Statement)) : ExecRes :=
  match fuel with
  | 0 => .err "evaluation fuel exhausted" st
  | fuel + 1 =>
    match elifs with
    | [] =>
      match eb with
      | some b => execStmts fuel st b
      | none => .norm st
    | (c, body) :: rest =>
      match evalExpr fuel st c with
      | .err m st1 => .err m st1
      | .ok cv st1 =>
        match truthyV st1.store cv with
        | .error m => .err m st1
        | .ok t =>
          if t then execStmts fuel st1 body
          else execElifs fuel st1 rest eb

/-- `visit_while_statement`: re-evaluate the condition each iteration; a
return propagates out. -/
def whileLoop (fuel : Nat) (st : State) (c : Expression) (body : List Statement) :
    ExecRes :=
  match fuel with
  | 0 => .err "evaluation fuel exhausted" st
  | fuel + 1 =>
    match evalExpr fuel st c with
    | .err m st1 => .err m st1
    | .ok cv st1 =>
      match truthyV st1.store cv with
      | .error m => .err m st1
      | .ok t =>
        if ! t then .norm st1
        else
          match execStmts fuel st1 body with
          | .norm st2 => whileLoop fuel st2 c body
          | .ret v st2 => .ret v st2
          | .err m st2 => .err m st2

/-- Execution of a statement block in order, stopping at a return or error. -/
def execStmts (fuel : Nat) (st : State) (ss : List Statement) : ExecRes :=
  match fuel with
  | 0 => .err "evaluation fuel exhausted" st
  | fuel + 1 =>
    match ss with
    | [] => .norm st
    | s :: rest =>
      match execStmt fuel st s with
      | .norm st1 => execStmts fuel st1 rest
      | .ret v st1 => .ret v st1
      | .err m st1 => .err m st1

end

/-- The `Program` node: top-level statements plus the name-indexed function
table the parser fills in (a parsed function definition appears in both). -/
structure Program where
  statements : List Statement
  functions : List (String × List String × List Statement)

/-- The interpreter's starting state: one empty root scope. -/
def initState : State := { frames := [[]], globals := [], store := [] }

/-- `visit_program`: pre-register every function by name, then execute the
top-level statements in order. -/
def runProgram (fuel : Nat) (p : Program) (st : State) : ExecRes :=
  let st1 := p.functions.foldl
    (fun s f => { s with frames := define s.frames f.1 (.VFuncDef f.1 f.2.1 f.2.2) }) st
  execStmts fuel st1 p.statements

/-! Concrete programs exercised by the theorems (written as the parser
produces them: a function definition appears both among the statements and in
the function table), together with the observations made on their final
states. -/

/-- `set x to 1` / `function f(): set x to 99` / `f()`. -/
def leakProg : Program :=
  { statements :=
      [ .Assignment (.Identifier "x") (.Literal (.num 1)),
        .FunctionDefinition "f" [] [Statement.Assignment (.Identifier "x") (.Literal (.num 99))],
        .ExpressionStatement (.FunctionCall "f" []) ],
    functions := [("f", [], [Statement.Assignment (.Identifier "x") (.Literal (.num 99))])] }

/-- The caller's binding of `x` after `leakProg` finishes. -/
def leakProgFinalX : Option Value :=
  match runProgram 100 leakProg initState with
  | .norm st => getVar st.frames "x"
  | _ => none

/-- `set $g to 1` / `function f(): set $g to 99` / `f()`. -/
def globalProg : Program :=
  { statements :=
      [ .Assignment (.GlobalVariable "$g") (.Literal (.num 1)),
        .FunctionDefinition "f" [] [Statement.Assignment (.GlobalVariable "$g") (.Literal (.num 99))],
        .ExpressionStatement (.FunctionCall "f" []) ],
    functions := [("f", [], [Statement.Assignment (.GlobalVariable "$g") (.Literal (.num 99))])] }

/-- The global `$g` after `globalProg` finishes. -/
def globalProgFinalG : Option Value :=
  match runProgram 100 globalProg initState with
  | .norm st => lookupFrame st.globals "$g"
  | _ => none

/-- `set a to [1,2,3]` / `set b to append(a,4)`. -/
def appendProg : Program :=
  { statements :=
      [ .Assignment (.Identifier "a")
          (.ListLiteral [.Literal (.num 1), .Literal (.num 2), .Literal (.num 3)]),
        .Assignment (.Identifier "b")
          (.FunctionCall "append" [.Identifier "a", .Literal (.num 4)]) ],
    functions := [] }

/-- The lengths of the lists bound to `a` and `b` after `appendProg`. -/
def appendProgLengths : Option (Nat × Nat) :=
  match runProgram 100 appendProg initState with
  | .norm st =>
    match getVar st.frames "a", getVar st.frames "b" with
    | some (.VList a), some (.VList b) =>
      some ((storeGet st.store a).length, (storeGet st.store b).length)
    | _, _ => none
  | _ => none

/-- `set a to [1,2,3]` / `set b to a` / `set a[0] to 99`. -/
def aliasProg : Program :=
  { statements :=
      [ .Assignment (.Identifier "a")
          (.ListLiteral [.Literal (.num 1), .Literal (.num 2), .Literal (.num 3)]),
        .Assignment (.Identifier "b") (.Identifier "a"),
        .Assignment (.ListIndex (.Identifier "a") (.Literal (.num 0))) (.Literal (.num 99)) ],
    functions := [] }

/-- The value the script reads back as `b[0]` after `aliasProg`. -/
def aliasProgBZero : Option Value :=
  match runProgram 100 aliasProg initState with
  | .norm st =>
    match evalExpr 50 st (.ListIndex (.Identifier "b") (.Literal (.num 0))) with
    | .ok v _ => some v
    | .err _ _ => none
  | _ => none

/-- `set $g to 1` / `function f(): set $g to 99` / `increase x by f()` with
`x` never defined. -/
def increaseProg : Program :=
  { statements :=
      [ .Assignment (.GlobalVariable "$g") (.Literal (.num 1)),
        .FunctionDefinition "f" [] [Statement.Assignment (.GlobalVariable "$g") (.Literal (.num 99))],
        .IncreaseStatement (.Identifier "x") (.FunctionCall "f" []) ],
    functions := [("f", [], [Statement.Assignment (.GlobalVariable "$g") (.Literal (.num 99))])] }

/-- The error message and the global `$g` at the moment `increaseProg`
fails. -/
def increaseProgOutcome : Option (String × Option Value) :=
  match runProgram 100 increaseProg initState with
  | .err m st => some (m, lookupFrame st.globals "$g")
  | _ => none

end Interp

/-! # Theorems -/

/-! ## Payload equality (claim C1) -/

theorem pyEq_iff_eq_of_boolFree :
    ∀ a b : HValue, boolFree a = true → boolFree b = true → (pyEq a b = true ↔ a = b) := by
  apply pyEq.induct
    (motive_2 := fun xs ys =>
      boolFreeList xs = true → boolFreeList ys = true → (pyEqList xs ys = true ↔ xs = ys))
  · intro x y _ _
    simp [pyEq]
  · intro x b _ hb
    simp [boolFree] at hb
  · intro a y ha _
    simp [boolFree] at ha
  · intro a b ha _
    simp [boolFree] at ha
  · intro s t _ _
    simp [pyEq]
  · intro xs ys ih hx hy
    simp only [boolFree] at hx hy
    simp [pyEq, ih hx hy]
  · intro _ _
    simp [pyEq]
  · intro t x h1 h2 h3 h4 h5 h6 h7 _ _
    cases t <;> cases x <;> simp_all [pyEq]
  · intro _ _
    simp [pyEqList]
  · intro x xs y ys ih1 ih2 hx hy
    simp only [boolFreeList, Bool.and_eq_true] at hx hy
    simp [pyEqList, ih1 hx.1 hy.1, ih2 hx.2 hy.2]
  · intro t x h1 h2 _ _
    cases t with
    | nil =>
      cases x with
      | nil => exact (h1 rfl rfl).elim
      | cons b bs => simp [pyEqList]
    | cons a as =>
      cases x with
      | nil => simp [pyEqList]
      | cons b bs => exact (h2 a as b bs rfl rfl).elim

theorem pyEq_iff_eq_of_numFree :
    ∀ a b : HValue, numFree a = true → numFree b = true → (pyEq a b = true ↔ a = b) := by
  apply pyEq.induct
    (motive_2 := fun xs ys =>
      numFreeList xs = true → numFreeList ys = true → (pyEqList xs ys = true ↔ xs = ys))
  · intro x y ha _
    simp [numFree] at ha
  · intro x b ha _
    simp [numFree] at ha
  · intro a y _ hb
    simp [numFree] at hb
  · intro a b _ _
    simp [pyEq]
  · intro s t _ _
    simp [pyEq]
  · intro xs ys ih hx hy
    simp only [numFree] at hx hy
    simp [pyEq, ih hx hy]
  · intro _ _
    simp [pyEq]
  · intro t x h1 h2 h3 h4 h5 h6 h7 _ _
    cases t <;> cases x <;> simp_all [pyEq]
  · intro _ _
    simp [pyEqList]
  · intro x xs y ys ih1 ih2 hx hy
    simp only [numFreeList, Bool.and_eq_true] at hx hy
    simp [pyEqList, ih1 hx.1 hy.1, ih2 hx.2 hy.2]
  · intro t x h1 h2 _ _
    cases t with
    | nil =>
      cases x with
      | nil => exact (h1 rfl rfl).elim
      | cons b bs => simp [pyEqList]
    | cons a as =>
      cases x with
      | nil => simp [pyEqList]
      | cons b bs => exact (h2 a as b bs rfl rfl).elim

theorem pyEq_cross_type :
    ∀ a b : HValue, type_name a ≠ type_name b → pyEq a b = numBoolCross a b := by
  intro a b h
  cases a <;> cases b <;> simp_all [type_name, pyEq, numBoolCross]

/-- C1 (amended).  Equality is total (never raises) and always returns a
Boolean.  When the operand types differ the result is `False`, except for the
Number/Boolean coincidence of the host language (`1 == True`, `0 == False`),
which also acts elementwise inside lists; away from that coincidence — on any
pair of values both free of Booleans, or both free of Numbers — equality
holds exactly for structurally identical values (deep, by value). -/
theorem C1_equality_amended (a b : HValue) :
    Operations.equals a b = .HBoolean (pyEq a b) ∧
    (type_name a ≠ type_name b → pyEq a b = numBoolCross a b) ∧
    (boolFree a = true → boolFree b = true → (pyEq a b = true ↔ a = b)) ∧
    (numFree a = true → numFree b = true → (pyEq a b = true ↔ a = b)) :=
  ⟨rfl, pyEq_cross_type a b, pyEq_iff_eq_of_boolFree a b, pyEq_iff_eq_of_numFree a b⟩

/-- C1 counterexample.  `HNumber 1` and `HBoolean true` have different
types, yet `Operations.equals` returns true on them — refuting "returns
false whenever the two operands' types differ". -/
theorem C1_counterexample :
    type_name (.HNumber 1) ≠ type_name (.HBoolean true) ∧
    Operations.equals (.HNumber 1) (.HBoolean true) = .HBoolean true := by
  constructor
  · decide
  · rfl

/-- Closed instances of `C1_equality_amended`. -/
theorem C1_equality_amended_witness :
    pyEq (.HNumber 2) (.HString "x") = numBoolCross (.HNumber 2) (.HString "x") ∧
    (pyEq (.HList [.HNumber 1]) (.HList [.HNumber 1]) = true ↔
      HValue.HList [.HNumber 1] = .HList [.HNumber 1]) ∧
    (pyEq (.HString "a") (.HBoolean true) = true ↔ HValue.HString "a" = .HBoolean true) :=
  ⟨(C1_equality_amended _ _).2.1 (by decide),
   (C1_equality_amended _ _).2.2.1 (by rfl) (by rfl),
   (C1_equality_amended _ _).2.2.2 (by rfl) (by rfl)⟩

/-! ## Indexing and slicing (claims C8, C9, C10) -/

theorem to_int_intCast (i : Int) : HNumber.to_int (i : Rat) = i := by
  simp [HNumber.to_int]

theorem is_integer_intCast (i : Int) : HNumber.is_integer (i : Rat) = true := by
  simp [HNumber.is_integer, HNumber.to_int]

/-- C8.  List indexing wraps negative indices from the end: indexing through
`Operations.list_index` with an integral number defers to
`HList.get_element`; for `0 ≤ i < N` the indices `i - N` and `i` return the
same (defined) element, and every integer outside `[-N, N-1]` raises the
index-out-of-range runtime error. -/
theorem C8_negative_indexing :
    (∀ (elems : List HValue) (i : Int),
      Operations.list_index (.HList elems) (.HNumber (i : Rat)) = HList.get_element elems i) ∧
    (∀ (elems : List HValue) (i : Nat), i < elems.length →
      HList.get_element elems ((i : Int) - elems.length) = HList.get_element elems i ∧
      ∃ v, HList.get_element elems i = .ok v) ∧
    (∀ (elems : List HValue) (j : Int),
      j < -(elems.length : Int) ∨ (elems.length : Int) ≤ j →
      HList.get_element elems j = .error "List index out of range") := by
  refine ⟨?_, ?_, ?_⟩
  · intro elems i
    simp [Operations.list_index, is_integer_intCast, to_int_intCast]
  · intro elems i hi
    have h1 : (if ((i : Int) - elems.length) < 0
        then (elems.length : Int) + ((i : Int) - elems.length)
        else ((i : Int) - elems.length)) = (i : Int) := by
      rw [if_pos (by omega)]
      omega
    have h2 : (if ((i : Int) : Int) < 0
        then (elems.length : Int) + (i : Int) else (i : Int)) = (i : Int) := by
      rw [if_neg (by omega)]
    constructor
    · simp only [HList.get_element, h1, h2]
    · simp only [HList.get_element, h2]
      rw [if_neg (by omega)]
      exact ⟨_, rfl⟩
  · intro elems j hj
    simp only [HList.get_element]
    split
    · rw [if_pos (by omega)]
    · rw [if_pos (by omega)]

/-- Closed instance of `C8_negative_indexing`: on `[7, 8]`, index `-1`
equals index `1`, and index `-3` is out of range. -/
theorem C8_negative_indexing_witness :
    (HList.get_element [.HNumber 7, .HNumber 8] ((1 : Int) - (2 : Nat)) =
      HList.get_element [.HNumber 7, .HNumber 8] (1 : Nat) ∧
      ∃ v, HList.get_element [.HNumber 7, .HNumber 8] ((1 : Nat) : Int) = .ok v) ∧
    HList.get_element [.HNumber 7, .HNumber 8] (-3) = .error "List index out of range" := by
  constructor
  · have h := C8_negative_indexing.2.1 [.HNumber 7, .HNumber 8] 1 (by decide)
    exact ⟨h.1, h.2⟩
  · exact C8_negative_indexing.2.2 [.HNumber 7, .HNumber 8] (-3) (by decide)

/-- C9.  For every list and every pair of optional integral bounds, slicing
succeeds — the error branches of `Operations.list_slice` are unreachable —
and returns the clamped `HList.get_slice` window; in particular `[10:20]` of
a 3-element list is the empty list. -/
theorem C9_slice_clamping :
    (∀ (elems : List HValue) (s e : Option Int),
      Operations.list_slice (.HList elems) (s.map fun i => .HNumber (i : Rat))
          (e.map fun i => .HNumber (i : Rat)) =
        .ok (.HList (HList.get_slice elems s e))) ∧
    Operations.list_slice (.HList [.HNumber 1, .HNumber 2, .HNumber 3])
        (some (.HNumber 10)) (some (.HNumber 20)) = .ok (.HList []) := by
  constructor
  · intro elems s e
    cases s <;> cases e <;>
      simp [Operations.list_slice, is_integer_intCast, to_int_intCast, pure, Except.pure,
        bind, Except.bind]
  · rfl

/-- C10.  List indexing demands an integral number: a non-integral Number
index raises "List index must be an integer" (no truncation), a non-Number
index raises "List index must be a number", and the same integrality checks
guard both slice bounds. -/
theorem C10_integral_index_required :
    (∀ (elems : List HValue) (q : Rat), HNumber.is_integer q = false →
      Operations.list_index (.HList elems) (.HNumber q) =
        .error "List index must be an integer") ∧
    (∀ (elems : List HValue) (v : HValue), isNumber v = false →
      Operations.list_index (.HList elems) v = .error "List index must be a number") ∧
    (∀ (elems : List HValue) (q : Rat) (stop? : Option HValue),
      HNumber.is_integer q = false →
      Operations.list_slice (.HList elems) (some (.HNumber q)) stop? =
        .error "Slice start must be an integer") ∧
    (∀ (elems : List HValue) (s : Option Int) (q : Rat), HNumber.is_integer q = false →
      Operations.list_slice (.HList elems) (s.map fun i => .HNumber (i : Rat))
          (some (.HNumber q)) = .error "Slice end must be an integer") := by
  refine ⟨?_, ?_, ?_, ?_⟩
  · intro elems q h
    simp [Operations.list_index, h]
  · intro elems v h
    cases v <;> simp_all [Operations.list_index, isNumber]
  · intro elems q stop? h
    simp [Operations.list_slice, h, bind, Except.bind]
  · intro elems s q h
    cases s <;>
      simp [Operations.list_slice, h, is_integer_intCast, to_int_intCast, bind, Except.bind,
        pure, Except.pure]

/-- Closed instances of `C10_integral_index_required` at index `3/2`. -/
theorem C10_integral_index_required_witness :
    Operations.list_index (.HList [.HNumber 1]) (.HNumber (mkRat 3 2)) =
      .error "List index must be an integer" ∧
    Operations.list_index (.HList [.HNumber 1]) (.HString "0") =
      .error "List index must be a number" ∧
    Operations.list_slice (.HList [.HNumber 1]) (some (.HNumber (mkRat 3 2))) none =
      .error "Slice start must be an integer" ∧
    Operations.list_slice (.HList [.HNumber 1]) none (some (.HNumber (mkRat 3 2))) =
      .error "Slice end must be an integer" :=
  ⟨C10_integral_index_required.1 _ _ (by decide),
   C10_integral_index_required.2.1 _ _ (by decide),
   C10_integral_index_required.2.2.1 _ _ none (by decide),
   C10_integral_index_required.2.2.2 _ none _ (by decide)⟩

end HPL

namespace HPL
namespace Lexer

theorem pushIndentsAux_spec (k : Nat) :
    ∀ (stack : List Nat) (target : Nat),
      stack.headD 0 ≤ target → (target - stack.headD 0) % 4 = 0 →
      target - stack.headD 0 ≤ 4 * k →
      (pushIndentsAux k stack target).2.length = (target - stack.headD 0) / 4 ∧
      ∀ t ∈ (pushIndentsAux k stack target).2, t.type = .INDENT := by
  induction k with
  | zero =>
    intro stack target h1 h2 h3
    have hz : (pushIndentsAux 0 stack target).2 = [] := rfl
    rw [hz]
    constructor
    · simp only [List.length_nil]
      omega
    · simp
  | succ k ih =>
    intro stack target h1 h2 h3
    by_cases hlt : stack.headD 0 < target
    · have hstep : (pushIndentsAux (k+1) stack target).2 =
          Token.mk .INDENT (.vInt (stack.headD 0 + INDENT_SIZE)) ::
            (pushIndentsAux k ((stack.headD 0 + INDENT_SIZE) :: stack) target).2 := by
        simp only [pushIndentsAux, if_pos hlt]
      have hh : (((stack.headD 0 + INDENT_SIZE) :: stack).headD 0) = stack.headD 0 + 4 := rfl
      have hih := ih ((stack.headD 0 + INDENT_SIZE) :: stack) target
        (by rw [hh]; omega) (by rw [hh]; omega) (by rw [hh]; omega)
      rw [hstep]
      constructor
      · rw [List.length_cons, hih.1, hh]
        omega
      · intro t ht
        rw [List.mem_cons] at ht
        rcases ht with h | h
        · rw [h]
        · exact hih.2 t h
    · have hz : (pushIndentsAux (k+1) stack target).2 = [] := by
        simp only [pushIndentsAux, if_neg hlt]
      rw [hz]
      constructor
      · simp only [List.length_nil]
        omega
      · simp

theorem popDedents_spec (stack : List Nat) (target : Nat) :
    (popDedents stack target).1 = stack.dropWhile (fun d => target < d) ∧
    (popDedents stack target).2.length =
      (stack.takeWhile (fun d => target < d)).length ∧
    ∀ t ∈ (popDedents stack target).2, t.type = .DEDENT := by
  induction stack with
  | nil => simp [popDedents]
  | cons top rest ih =>
    by_cases h : top > target
    · simp only [popDedents, if_pos h, List.dropWhile_cons, List.takeWhile_cons,
        decide_eq_true h]
      refine ⟨ih.1, ?_, ?_⟩
      · simp [ih.2.1]
      · intro t ht
        simp only [List.mem_cons] at ht
        rcases ht with h2 | h2
        · rw [h2]
        · exact ih.2.2 t h2
    · simp only [popDedents, if_neg h, List.dropWhile_cons, List.takeWhile_cons,
        decide_eq_false h]
      simp

end Lexer
end HPL


namespace HPL

theorem pushIndents_ok (stack : List Nat) (target : Nat)
    (h1 : stack.headD 0 ≤ target) (h2 : (target - stack.headD 0) % 4 = 0) :
    (Lexer.pushIndents stack target).2.length = (target - stack.headD 0) / 4 ∧
    ∀ t ∈ (Lexer.pushIndents stack target).2, t.type = .INDENT :=
  Lexer.pushIndentsAux_spec (target + 1) stack target h1 h2 (by omega)

/-- C4 (amended): an indentation increase that is not a multiple of 4 raises
the lexer error, a valid increase emits one INDENT per 4-space level, and a
decrease NEVER raises: it pops every level above the new indentation, one
DEDENT per popped level, with no check that the new indentation matches a
depth on the stack. -/
theorem C4_indentation_amended :
    (∀ (stack : List Nat) (ind : Nat), stack.headD 0 < ind →
        (ind - stack.headD 0) % 4 ≠ 0 →
        Lexer.processIndent stack ind =
          .error "Indentation must be a multiple of 4 spaces") ∧
    (∀ (stack : List Nat) (ind : Nat), stack.headD 0 < ind →
        (ind - stack.headD 0) % 4 = 0 →
        ∃ stack2 toks, Lexer.processIndent stack ind = .ok (stack2, toks) ∧
          toks.length = (ind - stack.headD 0) / 4 ∧
          ∀ t ∈ toks, t.type = .INDENT) ∧
    (∀ (stack : List Nat) (ind : Nat), ind < stack.headD 0 →
        ∃ stack2 toks, Lexer.processIndent stack ind = .ok (stack2, toks) ∧
          stack2 = stack.dropWhile (fun d => ind < d) ∧
          toks.length = (stack.takeWhile (fun d => ind < d)).length ∧
          ∀ t ∈ toks, t.type = .DEDENT) ∧
    Lexer.tokenize "if a:\n   b" =
      .error "Indentation must be a multiple of 4 spaces" := by
  refine ⟨?_, ?_, ?_, rfl⟩
  · intro stack ind h1 h2
    simp only [Lexer.processIndent, Lexer.INDENT_SIZE]
    rw [if_pos h1, if_pos h2]
  · intro stack ind h1 h2
    refine ⟨(Lexer.pushIndents stack ind).1, (Lexer.pushIndents stack ind).2, ?_, ?_, ?_⟩
    · simp only [Lexer.processIndent, Lexer.INDENT_SIZE]
      rw [if_pos h1, if_neg (by omega)]
    · exact (pushIndents_ok stack ind (by omega) h2).1
    · exact (pushIndents_ok stack ind (by omega) h2).2
  · intro stack ind h1
    refine ⟨(Lexer.popDedents stack ind).1, (Lexer.popDedents stack ind).2, ?_, ?_, ?_, ?_⟩
    · simp only [Lexer.processIndent, Lexer.INDENT_SIZE]
      rw [if_neg (by omega), if_pos h1]
    · exact (Lexer.popDedents_spec stack ind).1
    · exact (Lexer.popDedents_spec stack ind).2.1
    · exact (Lexer.popDedents_spec stack ind).2.2

/-- C4 counterexample: dedenting to 6 spaces while the indent stack holds
0/4/8 is NOT a lexer error: `scan_tokens` pops levels above 6 (emitting one
DEDENT) and silently accepts the mismatch, leaving the stack top at 4. -/
theorem C4_counterexample :
    Lexer.tokenize "if a:\n        b\n      c" = .ok
      [Lexer.Token.mk .IF (.vStr "if"),
       Lexer.Token.mk .IDENTIFIER (.vStr "a"),
       Lexer.Token.mk .COLON (.vStr ":"),
       Lexer.Token.mk .NEWLINE .vNone,
       Lexer.Token.mk .INDENT (.vInt 4),
       Lexer.Token.mk .INDENT (.vInt 8),
       Lexer.Token.mk .IDENTIFIER (.vStr "b"),
       Lexer.Token.mk .NEWLINE .vNone,
       Lexer.Token.mk .DEDENT (.vInt 4),
       Lexer.Token.mk .IDENTIFIER (.vStr "c"),
       Lexer.Token.mk .NEWLINE .vNone,
       Lexer.Token.mk .DEDENT (.vInt 0),
       Lexer.Token.mk .EOF .vNone] := rfl

theorem C4_indentation_amended_witness :
    Lexer.processIndent [0] 3 =
      .error "Indentation must be a multiple of 4 spaces" :=
  C4_indentation_amended.1 [0] 3 (by decide) (by decide)

end HPL

namespace HPL
namespace Lexer

set_option maxHeartbeats 1000000 in
theorem mergeAux_fuel (f : Nat) (l : List Token) :
    ∀ f' : Nat, l.length < f → l.length < f' → mergeAux f l = mergeAux f' l := by
  induction f, l using mergeAux.induct
  all_goals intro f' h1 h2
  case case1 => omega
  all_goals
    cases f' with
    | zero => omega
    | succ f2 => ?_
  all_goals try simp only [List.length_cons] at h1 h2
  all_goals simp only [mergeAux]
  all_goals try simp_all
  all_goals try (apply_assumption <;> omega)
  all_goals try split
  all_goals try simp_all
  all_goals try (apply_assumption <;> omega)
  all_goals try split
  all_goals try simp_all
  all_goals try (apply_assumption <;> omega)
  all_goals try split
  all_goals try split
  all_goals try simp_all
  all_goals try (apply_assumption <;> omega)

end Lexer

namespace Lexer

theorem mergeAux_ne (f : Nat) (t n : Token) (rest : List Token)
    (ht : t.type = .IS) (hn : n.type = .NOT) :
    mergeAux (f + 1) (t :: n :: rest) =
      Token.mk .NE (.vStr "is not") :: mergeAux f rest := by
  simp [mergeAux, ht, hn]

theorem mergeAux_gt (f : Nat) (t n m : Token) (rest : List Token)
    (ht : t.type = .IS) (hn1 : n.type = .IDENTIFIER) (hn2 : n.value = .vStr "greater")
    (hm1 : m.type = .IDENTIFIER) (hm2 : m.value = .vStr "than") :
    mergeAux (f + 1) (t :: n :: m :: rest) =
      Token.mk .GT (.vStr "is greater than") :: mergeAux f rest := by
  simp [mergeAux, ht, hn1, hn2, hm1, hm2]

theorem mergeAux_lt (f : Nat) (t n m : Token) (rest : List Token)
    (ht : t.type = .IS) (hn1 : n.type = .IDENTIFIER) (hn2 : n.value = .vStr "less")
    (hm1 : m.type = .IDENTIFIER) (hm2 : m.value = .vStr "than") :
    mergeAux (f + 1) (t :: n :: m :: rest) =
      Token.mk .LT (.vStr "is less than") :: mergeAux f rest := by
  simp [mergeAux, ht, hn1, hn2, hm1, hm2]

theorem mergeAux_ge (f : Nat) (t n m : Token) (rest : List Token)
    (ht : t.type = .IS) (hn1 : n.type = .IDENTIFIER) (hn2 : n.value = .vStr "at")
    (hm1 : m.type = .IDENTIFIER) (hm2 : m.value = .vStr "least") :
    mergeAux (f + 1) (t :: n :: m :: rest) =
      Token.mk .GE (.vStr "is at least") :: mergeAux f rest := by
  simp [mergeAux, ht, hn1, hn2, hm1, hm2]

theorem mergeAux_le (f : Nat) (t n m : Token) (rest : List Token)
    (ht : t.type = .IS) (hn1 : n.type = .IDENTIFIER) (hn2 : n.value = .vStr "at")
    (hm1 : m.type = .IDENTIFIER) (hm2 : m.value = .vStr "most") :
    mergeAux (f + 1) (t :: n :: m :: rest) =
      Token.mk .LE (.vStr "is at most") :: mergeAux f rest := by
  simp [mergeAux, ht, hn1, hn2, hm1, hm2]

theorem mergeAux_bare_eq (f : Nat) (t n : Token) (rest : List Token)
    (ht : t.type = .IS) (hn1 : ¬n.type = .NOT) (hn2 : ¬n.type = .IDENTIFIER) :
    mergeAux (f + 1) (t :: n :: rest) =
      Token.mk .EQ (.vStr "is") :: mergeAux f (n :: rest) := by
  simp [mergeAux, ht, hn1, hn2]

end Lexer

/-- C7: the post-scan merge pass rewrites multi-word operator sequences
greedily left to right (is not → NE; is greater than → GT; is less than →
LT; is at least → GE; is at most → LE; a bare is followed by anything that
starts no longer pattern → EQ), and the source `5 is greater than 3`
tokenizes to a single GT token between the two numbers and parses to a
single Comparison node with operator string "is greater than". -/
theorem C7_merge_operators :
    (∀ (t n : Lexer.Token) (rest : List Lexer.Token),
        t.type = .IS → n.type = .NOT →
        Lexer.merge_compound_operators (t :: n :: rest) =
          Lexer.Token.mk .NE (.vStr "is not") ::
            Lexer.merge_compound_operators rest) ∧
    (∀ (t n m : Lexer.Token) (rest : List Lexer.Token),
        t.type = .IS → n.type = .IDENTIFIER → n.value = .vStr "greater" →
        m.type = .IDENTIFIER → m.value = .vStr "than" →
        Lexer.merge_compound_operators (t :: n :: m :: rest) =
          Lexer.Token.mk .GT (.vStr "is greater than") ::
            Lexer.merge_compound_operators rest) ∧
    (∀ (t n m : Lexer.Token) (rest : List Lexer.Token),
        t.type = .IS → n.type = .IDENTIFIER → n.value = .vStr "less" →
        m.type = .IDENTIFIER → m.value = .vStr "than" →
        Lexer.merge_compound_operators (t :: n :: m :: rest) =
          Lexer.Token.mk .LT (.vStr "is less than") ::
            Lexer.merge_compound_operators rest) ∧
    (∀ (t n m : Lexer.Token) (rest : List Lexer.Token),
        t.type = .IS → n.type = .IDENTIFIER → n.value = .vStr "at" →
        m.type = .IDENTIFIER → m.value = .vStr "least" →
        Lexer.merge_compound_operators (t :: n :: m :: rest) =
          Lexer.Token.mk .GE (.vStr "is at least") ::
            Lexer.merge_compound_operators rest) ∧
    (∀ (t n m : Lexer.Token) (rest : List Lexer.Token),
        t.type = .IS → n.type = .IDENTIFIER → n.value = .vStr "at" →
        m.type = .IDENTIFIER → m.value = .vStr "most" →
        Lexer.merge_compound_operators (t :: n :: m :: rest) =
          Lexer.Token.mk .LE (.vStr "is at most") ::
            Lexer.merge_compound_operators rest) ∧
    (∀ (t n : Lexer.Token) (rest : List Lexer.Token),
        t.type = .IS → ¬n.type = .NOT → ¬n.type = .IDENTIFIER →
        Lexer.merge_compound_operators (t :: n :: rest) =
          Lexer.Token.mk .EQ (.vStr "is") ::
            Lexer.merge_compound_operators (n :: rest)) ∧
    Lexer.tokenize "5 is greater than 3" = .ok
      [Lexer.Token.mk .NUMBER (.vNum 5),
       Lexer.Token.mk .GT (.vStr "is greater than"),
       Lexer.Token.mk .NUMBER (.vNum 3),
       Lexer.Token.mk .NEWLINE .vNone,
       Lexer.Token.mk .EOF .vNone] ∧
    Parser.expression 50
      [Lexer.Token.mk .NUMBER (.vNum 5),
       Lexer.Token.mk .GT (.vStr "is greater than"),
       Lexer.Token.mk .NUMBER (.vNum 3),
       Lexer.Token.mk .NEWLINE .vNone,
       Lexer.Token.mk .EOF .vNone] 0 =
      .ok (.Comparison (.Literal (.num 5)) "is greater than"
            (.Literal (.num 3)), 3) := by
  refine ⟨?_, ?_, ?_, ?_, ?_, ?_, rfl, rfl⟩
  · intro t n rest ht hn
    have h1 : Lexer.merge_compound_operators (t :: n :: rest) =
        Lexer.mergeAux (rest.length + 2 + 1) (t :: n :: rest) := rfl
    have h2 : Lexer.merge_compound_operators rest =
        Lexer.mergeAux (rest.length + 1) rest := rfl
    rw [h1, Lexer.mergeAux_ne (rest.length + 2) t n rest ht hn, h2]
    exact congrArg _ (Lexer.mergeAux_fuel (rest.length + 2) rest (rest.length + 1)
      (by omega) (by omega))
  · intro t n m rest ht hn1 hn2 hm1 hm2
    have h1 : Lexer.merge_compound_operators (t :: n :: m :: rest) =
        Lexer.mergeAux (rest.length + 3 + 1) (t :: n :: m :: rest) := rfl
    have h2 : Lexer.merge_compound_operators rest =
        Lexer.mergeAux (rest.length + 1) rest := rfl
    rw [h1, Lexer.mergeAux_gt (rest.length + 3) t n m rest ht hn1 hn2 hm1 hm2, h2]
    exact congrArg _ (Lexer.mergeAux_fuel (rest.length + 3) rest (rest.length + 1)
      (by omega) (by omega))
  · intro t n m rest ht hn1 hn2 hm1 hm2
    have h1 : Lexer.merge_compound_operators (t :: n :: m :: rest) =
        Lexer.mergeAux (rest.length + 3 + 1) (t :: n :: m :: rest) := rfl
    have h2 : Lexer.merge_compound_operators rest =
        Lexer.mergeAux (rest.length + 1) rest := rfl
    rw [h1, Lexer.mergeAux_lt (rest.length + 3) t n m rest ht hn1 hn2 hm1 hm2, h2]
    exact congrArg _ (Lexer.mergeAux_fuel (rest.length + 3) rest (rest.length + 1)
      (by omega) (by omega))
  · intro t n m rest ht hn1 hn2 hm1 hm2
    have h1 : Lexer.merge_compound_operators (t :: n :: m :: rest) =
        Lexer.mergeAux (rest.length + 3 + 1) (t :: n :: m :: rest) := rfl
    have h2 : Lexer.merge_compound_operators rest =
        Lexer.mergeAux (rest.length + 1) rest := rfl
    rw [h1, Lexer.mergeAux_ge (rest.length + 3) t n m rest ht hn1 hn2 hm1 hm2, h2]
    exact congrArg _ (Lexer.mergeAux_fuel (rest.length + 3) rest (rest.length + 1)
      (by omega) (by omega))
  · intro t n m rest ht hn1 hn2 hm1 hm2
    have h1 : Lexer.merge_compound_operators (t :: n :: m :: rest) =
        Lexer.mergeAux (rest.length + 3 + 1) (t :: n :: m :: rest) := rfl
    have h2 : Lexer.merge_compound_operators rest =
        Lexer.mergeAux (rest.length + 1) rest := rfl
    rw [h1, Lexer.mergeAux_le (rest.length + 3) t n m rest ht hn1 hn2 hm1 hm2, h2]
    exact congrArg _ (Lexer.mergeAux_fuel (rest.length + 3) rest (rest.length + 1)
      (by omega) (by omega))
  · intro t n rest ht hn1 hn2
    have h1 : Lexer.merge_compound_operators (t :: n :: rest) =
        Lexer.mergeAux (rest.length + 2 + 1) (t :: n :: rest) := rfl
    have h2 : Lexer.merge_compound_operators (n :: rest) =
        Lexer.mergeAux (rest.length + 1 + 1) (n :: rest) := rfl
    rw [h1, Lexer.mergeAux_bare_eq (rest.length + 2) t n rest ht hn1 hn2, h2]

theorem C7_merge_operators_witness :
    Lexer.merge_compound_operators
      [Lexer.Token.mk .IS (.vStr "is"), Lexer.Token.mk .NOT (.vStr "not"),
       Lexer.Token.mk .EOF .vNone] =
      [Lexer.Token.mk .NE (.vStr "is not"), Lexer.Token.mk .EOF .vNone] := by
  rw [C7_merge_operators.1 (Lexer.Token.mk .IS (.vStr "is"))
    (Lexer.Token.mk .NOT (.vStr "not")) [Lexer.Token.mk .EOF .vNone] rfl rfl]
  rfl

end HPL

namespace HPL
namespace Interp

/-- C5: `and` and `or` short-circuit on the left operand's truthiness — a
falsy left for `and` yields Boolean false and a truthy left for `or` yields
Boolean true without the right operand influencing result or state — and in
the non-short-circuit case the result is the Boolean of the RIGHT operand's
truthiness, never the right operand's value itself. -/
theorem C5_logical_short_circuit :
    (∀ (fuel : Nat) (st : State) (l r : Expression) (lv : Value) (st1 : State),
        evalExpr fuel st l = .ok lv st1 →
        truthyV st1.store lv = .ok false →
        evalExpr (fuel + 1) st (.LogicalOperation l "and" r) =
          .ok (.VBoolean false) st1) ∧
    (∀ (fuel : Nat) (st : State) (l r : Expression) (lv : Value) (st1 : State),
        evalExpr fuel st l = .ok lv st1 →
        truthyV st1.store lv = .ok true →
        evalExpr (fuel + 1) st (.LogicalOperation l "or" r) =
          .ok (.VBoolean true) st1) ∧
    (∀ (fuel : Nat) (st : State) (l r : Expression) (lv rv : Value)
        (st1 st2 : State) (rt : Bool),
        evalExpr fuel st l = .ok lv st1 →
        truthyV st1.store lv = .ok true →
        evalExpr fuel st1 r = .ok rv st2 →
        truthyV st2.store rv = .ok rt →
        evalExpr (fuel + 1) st (.LogicalOperation l "and" r) =
          .ok (.VBoolean rt) st2) ∧
    (∀ (fuel : Nat) (st : State) (l r : Expression) (lv rv : Value)
        (st1 st2 : State) (rt : Bool),
        evalExpr fuel st l = .ok lv st1 →
        truthyV st1.store lv = .ok false →
        evalExpr fuel st1 r = .ok rv st2 →
        truthyV st2.store rv = .ok rt →
        evalExpr (fuel + 1) st (.LogicalOperation l "or" r) =
          .ok (.VBoolean rt) st2) := by
  refine ⟨?_, ?_, ?_, ?_⟩
  · intro fuel st l r lv st1 hl ht
    simp [evalExpr, hl, ht]
  · intro fuel st l r lv st1 hl ht
    simp [evalExpr, hl, ht]
  · intro fuel st l r lv rv st1 st2 rt hl ht hr hrt
    simp [evalExpr, hl, ht, hr, hrt]
  · intro fuel st l r lv rv st1 st2 rt hl ht hr hrt
    simp [evalExpr, hl, ht, hr, hrt]

theorem C5_logical_short_circuit_witness :
    evalExpr 2 initState
        (.LogicalOperation (.Literal (.bool false)) "and"
          (.Literal (.num 7))) =
      .ok (.VBoolean false) initState :=
  C5_logical_short_circuit.1 1 initState (.Literal (.bool false))
    (.Literal (.num 7)) (.VBoolean false) initState rfl rfl

end Interp
end HPL

namespace HPL
namespace Interp

theorem frameSet_lookup_self (f : Frame) (n : String) (v : Value) :
    lookupFrame (frameSet f n v) n = some v := by
  induction f with
  | nil => simp [frameSet, lookupFrame, List.find?]
  | cons p rest ih =>
    obtain ⟨k, w⟩ := p
    by_cases h : k = n
    · simp [frameSet, lookupFrame, List.find?, h]
    · simp only [frameSet, if_neg h]
      simp only [lookupFrame, List.find?] at ih ⊢
      have hk : (k == n) = false := by simp [h]
      simp [hk, ih]

theorem assignVar_of_exists (fs : List Frame) (n : String) (v : Value)
    (h : existsVar fs n = true) :
    ∃ fs2, assignVar fs n v = some fs2 ∧ getVar fs2 n = some v := by
  induction fs with
  | nil => simp [existsVar] at h
  | cons f rest ih =>
    by_cases hh : (lookupFrame f n).isSome
    · refine ⟨frameSet f n v :: rest, ?_, ?_⟩
      · simp [assignVar, hh]
      · simp [getVar, frameSet_lookup_self]
    · have h2 : existsVar rest n = true := by
        simp [existsVar] at h ⊢
        rcases h with h | h
        · exact absurd h hh
        · exact h
      obtain ⟨fs2, h3, h4⟩ := ih h2
      refine ⟨f :: fs2, ?_, ?_⟩
      · simp [assignVar, hh, h3]
      · have h5 : lookupFrame f n = none := by
          cases hx : lookupFrame f n
          · rfl
          · rw [hx] at hh; simp at hh
        simp [getVar, h5, h4]

theorem getVar_define (fs : List Frame) (n : String) (v : Value)
    (h : fs ≠ []) : getVar (define fs n v) n = some v := by
  cases fs with
  | nil => exact absurd rfl h
  | cons f rest => simp [define, getVar, frameSet_lookup_self]

/-- C6 (amended): `set x to v` on a plain identifier never fails once the
value has evaluated: it updates the innermost scope that already binds `x`
and otherwise defines `x` in the current scope (create-or-update), and the
new binding is visible.  `increase x by v` with `x` nowhere defined raises
"Undefined variable: x" — but only AFTER evaluating the amount expression,
so the amount's side effects survive into the error state. -/
theorem C6_set_increase_amended :
    (∀ (fuel : Nat) (st : State) (name : String) (value : Expression)
        (v : Value) (st1 : State),
        evalExpr fuel st value = .ok v st1 →
        existsVar st1.frames name = false →
        execStmt (fuel + 1) st (.Assignment (.Identifier name) value) =
          .norm { st1 with frames := define st1.frames name v }) ∧
    (∀ (fs : List Frame) (name : String) (v : Value), fs ≠ [] →
        getVar (define fs name v) name = some v) ∧
    (∀ (fuel : Nat) (st : State) (name : String) (value : Expression)
        (v : Value) (st1 : State),
        evalExpr fuel st value = .ok v st1 →
        existsVar st1.frames name = true →
        ∃ fs2, assignVar st1.frames name v = some fs2 ∧
          execStmt (fuel + 1) st (.Assignment (.Identifier name) value) =
            .norm { st1 with frames := fs2 } ∧
          getVar fs2 name = some v) ∧
    (∀ (fuel : Nat) (st : State) (name : String) (amount : Expression)
        (av : Value) (st1 : State),
        evalExpr fuel st amount = .ok av st1 →
        getVar st1.frames name = none →
        execStmt (fuel + 1) st (.IncreaseStatement (.Identifier name) amount) =
          .err ("Undefined variable: " ++ name) st1) := by
  refine ⟨?_, ?_, ?_, ?_⟩
  · intro fuel st name value v st1 hv hex
    simp [execStmt, hv, hex]
  · exact getVar_define
  · intro fuel st name value v st1 hv hex
    obtain ⟨fs2, h1, h2⟩ := assignVar_of_exists st1.frames name v hex
    exact ⟨fs2, h1, by simp [execStmt, hv, hex, h1], h2⟩
  · intro fuel st name amount av st1 ha hg
    simp [execStmt, ha, hg]

/-- C6 counterexample: `increase x by f()` with `x` undefined DOES change
bindings before failing: the call `f()` runs first and sets the global `$g`
to 99, and the error state keeps that assignment. -/
theorem C6_counterexample :
    increaseProgOutcome = some ("Undefined variable: x", some (.VNumber 99)) := rfl

theorem C6_set_increase_amended_witness :
    execStmt 2 initState (.Assignment (.Identifier "x") (.Literal (.num 5))) =
      .norm { initState with frames := define initState.frames "x" (.VNumber 5) } :=
  C6_set_increase_amended.1 1 initState "x" (.Literal (.num 5)) (.VNumber 5)
    initState rfl rfl

end Interp
end HPL

namespace HPL
namespace Interp

theorem storeGet_append_left (store ext : Store) (b : Nat)
    (h : b < store.length) : storeGet (store ++ ext) b = storeGet store b := by
  simp [storeGet, List.getD, List.getElem?_append_left h]

theorem copy_extends (fuel : Nat) :
    (∀ (store : Store) (v : Value) (v2 : Value) (store2 : Store),
        copyValue fuel store v = .ok (v2, store2) →
        ∃ ext, store2 = store ++ ext) ∧
    (∀ (store : Store) (l : List Value) (l2 : List Value) (store2 : Store),
        copyList fuel store l = .ok (l2, store2) →
        ∃ ext, store2 = store ++ ext) := by
  induction fuel using Nat.strong_induction_on with
  | _ fuel ih =>
    constructor
    · intro store v v2 store2 h
      match v, h with
      | .VNumber q, h => exact ⟨[], by simp_all [copyValue]⟩
      | .VString s, h => exact ⟨[], by simp_all [copyValue]⟩
      | .VBoolean b, h => exact ⟨[], by simp_all [copyValue]⟩
      | .VNull, h => exact ⟨[], by simp_all [copyValue]⟩
      | .VFuncDef nm ps bd, h => exact absurd h (by simp [copyValue])
      | .VList addr, h =>
        match fuel, ih, h with
        | fuel + 1, ih, h =>
          simp only [copyValue, bind, Except.bind] at h
          cases hc : copyList fuel store (storeGet store addr) with
          | error m => simp [hc] at h
          | ok p =>
            obtain ⟨elems2, storeMid⟩ := p
            simp only [hc] at h
            obtain ⟨ext1, hext1⟩ := ((ih fuel (by omega)).2) _ _ _ _ hc
            simp only [pure, Except.pure, Except.ok.injEq, Prod.mk.injEq, alloc] at h
            refine ⟨ext1 ++ [elems2], ?_⟩
            rw [← h.2, hext1]
            simp
    · intro store l l2 store2 h
      induction l generalizing store l2 with
      | nil => exact ⟨[], by simp_all [copyList]⟩
      | cons v rest ihl =>
        match fuel, ih, h with
        | fuel + 1, ih, h =>
          simp only [copyList, bind, Except.bind] at h
          cases hc : copyValue fuel store v with
          | error m => simp [hc] at h
          | ok p =>
            obtain ⟨v2, storeMid⟩ := p
            simp only [hc] at h
            obtain ⟨ext1, hext1⟩ := ((ih fuel (by omega)).1) _ _ _ _ hc
            cases hc2 : copyList fuel storeMid rest with
            | error m => simp [hc2] at h
            | ok p2 =>
              obtain ⟨rest2, storeEnd⟩ := p2
              simp only [hc2] at h
              obtain ⟨ext2, hext2⟩ := ((ih fuel (by omega)).2) _ _ _ _ hc2
              simp only [pure, Except.pure, Except.ok.injEq, Prod.mk.injEq] at h
              refine ⟨ext1 ++ ext2, ?_⟩
              rw [← h.2, hext2, hext1]
              simp


theorem appendS_fresh (fuel : Nat) (store : Store) (addr : Nat)
    (el v : Value) (store2 : Store)
    (h : appendS fuel store addr el = .ok (v, store2)) :
    ∃ a ext, v = .VList a ∧ store2 = store ++ ext ∧
      store.length ≤ a ∧ a < store2.length := by
  simp only [appendS, bind, Except.bind] at h
  cases hc : copyList fuel store (storeGet store addr) with
  | error m => simp [hc] at h
  | ok p =>
    obtain ⟨elems2, storeMid⟩ := p
    simp only [hc, pure, Except.pure, alloc, Except.ok.injEq, Prod.mk.injEq] at h
    obtain ⟨ext1, hext1⟩ := (copy_extends fuel).2 _ _ _ _ hc
    refine ⟨storeMid.length, ext1 ++ [elems2 ++ [el]], h.1.symm, ?_, ?_, ?_⟩
    · rw [← h.2, hext1]; simp
    · rw [hext1]; simp
    · rw [← h.2]; simp

theorem remove_atS_fresh (fuel : Nat) (store : Store) (addr : Nat)
    (index : Int) (v : Value) (store2 : Store)
    (h : remove_atS fuel store addr index = .ok (v, store2)) :
    ∃ a ext, v = .VList a ∧ store2 = store ++ ext ∧
      store.length ≤ a ∧ a < store2.length := by
  simp only [remove_atS, bind, Except.bind] at h
  cases hc : copyList fuel store (storeGet store addr) with
  | error m =>
    simp only [hc] at h
    split at h <;> (split at h <;> simp_all)
  | ok p =>
    obtain ⟨elems2, storeMid⟩ := p
    simp only [hc, pure, Except.pure, alloc] at h
    obtain ⟨ext1, hext1⟩ := (copy_extends fuel).2 _ _ _ _ hc
    split at h
    · split at h
      · exact absurd h (by simp)
      · simp only [Except.ok.injEq, Prod.mk.injEq] at h
        refine ⟨storeMid.length,
          ext1 ++ [elems2.eraseIdx (((storeGet store addr).length : Int) + index).toNat],
          h.1.symm, ?_, ?_, ?_⟩
        · rw [← h.2, hext1]; simp
        · rw [hext1]; simp
        · rw [← h.2]; simp
    · split at h
      · exact absurd h (by simp)
      · simp only [Except.ok.injEq, Prod.mk.injEq] at h
        refine ⟨storeMid.length, ext1 ++ [elems2.eraseIdx index.toNat],
          h.1.symm, ?_, ?_, ?_⟩
        · rw [← h.2, hext1]; simp
        · rw [hext1]; simp
        · rw [← h.2]; simp

theorem sortS_fresh (fuel : Nat) (store : Store) (addr : Nat) (desc : Bool)
    (v : Value) (store2 : Store)
    (h : sortS fuel store addr desc = .ok (v, store2)) :
    ∃ elems2, v = .VList store.length ∧ store2 = store ++ [elems2] := by
  simp only [sortS, bind, Except.bind] at h
  cases hc : insortAll fuel store desc [] (storeGet store addr) with
  | error m => simp [hc] at h
  | ok elems2 =>
    simp only [hc, pure, Except.pure, alloc, Except.ok.injEq, Prod.mk.injEq] at h
    exact ⟨elems2, h.1.symm, h.2.symm⟩

/-- C3 (amended): every list operation the language presents as list-producing
(append, removeAt, sort, reverse, slice) allocates a FRESH list object — the
result lives at a store address at or past the old store's end, the old store
is only extended, and every pre-existing list object is untouched — and in the
concrete program `set a to [1,2,3]; set b to append(a,4)` the variable `a`
still has length 3 while `b` has length 4.  Lists are NOT value-semantic,
however: plain assignment shares the underlying object (see the
counterexample). -/
theorem C3_list_operations_amended :
    (∀ (fuel : Nat) (store : Store) (addr : Nat) (el v : Value) (store2 : Store),
        appendS fuel store addr el = .ok (v, store2) →
        ∃ a ext, v = .VList a ∧ store2 = store ++ ext ∧
          store.length ≤ a ∧ a < store2.length) ∧
    (∀ (fuel : Nat) (store : Store) (addr : Nat) (index : Int)
        (v : Value) (store2 : Store),
        remove_atS fuel store addr index = .ok (v, store2) →
        ∃ a ext, v = .VList a ∧ store2 = store ++ ext ∧
          store.length ≤ a ∧ a < store2.length) ∧
    (∀ (fuel : Nat) (store : Store) (addr : Nat) (desc : Bool)
        (v : Value) (store2 : Store),
        sortS fuel store addr desc = .ok (v, store2) →
        ∃ elems2, v = .VList store.length ∧ store2 = store ++ [elems2]) ∧
    (∀ (store : Store) (addr : Nat),
        reverseS store addr =
          (.VList store.length, store ++ [(storeGet store addr).reverse])) ∧
    (∀ (store : Store) (addr : Nat) (start? stop? : Option Int),
        get_sliceS store addr start? stop? =
          (.VList store.length,
            store ++ [pySlice (storeGet store addr) start? stop?])) ∧
    (∀ (store ext : Store) (b : Nat), b < store.length →
        storeGet (store ++ ext) b = storeGet store b) ∧
    appendProgLengths = some (3, 4) := by
  exact ⟨appendS_fresh, remove_atS_fresh, sortS_fresh,
    fun _ _ => rfl, fun _ _ _ _ => rfl, storeGet_append_left, rfl⟩

/-- C3 counterexample: lists do not have value semantics — after
`set a to [1,2,3]; set b to a; set a[0] to 99` the update through `a` is
visible through `b`: `b[0]` evaluates to 99, because assignment shares the
underlying list object and indexed assignment mutates it in place. -/
theorem C3_counterexample :
    aliasProgBZero = some (.VNumber 99) := rfl

theorem C3_list_operations_amended_witness :
    appendS 10 [[.VNumber 1]] 0 (.VNumber 2) =
      .ok (.VList 1, [[.VNumber 1], [.VNumber 1, .VNumber 2]]) ∧
    (∃ a ext, (Value.VList 1 : Value) = .VList a ∧
      ([[.VNumber 1], [.VNumber 1, .VNumber 2]] : Store) = [[.VNumber 1]] ++ ext ∧
      ([[.VNumber 1]] : Store).length ≤ a ∧
      a < ([[.VNumber 1], [.VNumber 1, .VNumber 2]] : Store).length) :=
  ⟨rfl, C3_list_operations_amended.1 10 [[.VNumber 1]] 0 (.VNumber 2)
    (.VList 1) [[.VNumber 1], [.VNumber 1, .VNumber 2]] rfl⟩

end Interp
end HPL

namespace HPL
namespace Interp

/-- The frames of the state an expression evaluation ends in, whether it
succeeded or raised. -/
def resFrames {α : Type} : Res α → List Frame
  | .ok _ st => st.frames
  | .err _ st => st.frames

/-- The frames of the state a statement execution ends in. -/
def erFrames : ExecRes → List Frame
  | .norm st => st.frames
  | .ret _ st => st.frames
  | .err _ st => st.frames

/-- `x` is bound in none of the frames. -/
def unboundIn (x : String) (fs : List Frame) : Prop :=
  ∀ f ∈ fs, lookupFrame f x = none

theorem frameSet_lookup_other (f : Frame) (n : String) (v : Value) (x : String)
    (h : x ≠ n) : lookupFrame (frameSet f n v) x = lookupFrame f x := by
  have hnx : (n == x) = false := by
    simp only [beq_eq_false_iff_ne]
    exact fun hh => h hh.symm
  induction f with
  | nil => simp [frameSet, lookupFrame, List.find?, hnx]
  | cons p rest ih =>
    obtain ⟨kk, w⟩ := p
    by_cases hk : kk = n
    · subst hk
      simp [frameSet, lookupFrame, List.find?, hnx]
    · simp only [frameSet, if_neg hk]
      simp only [lookupFrame, List.find?] at ih ⊢
      cases hkx : (kk == x) with
      | true => simp [hkx]
      | false => simpa [hkx] using ih

theorem define_drop (fs : List Frame) (n : String) (v : Value) (k : Nat)
    (hk : 1 ≤ k) : (define fs n v).drop k = fs.drop k := by
  cases fs with
  | nil => simp [define]
  | cons f rest =>
    obtain ⟨k2, hk2⟩ : ∃ k2, k = k2 + 1 := ⟨k - 1, by omega⟩
    subst hk2
    simp [define]

theorem assignVar_unbound (fs : List Frame) (n : String) (v : Value)
    (x : String) :
    ∀ (fs2 : List Frame) (k : Nat), assignVar fs n v = some fs2 →
      unboundIn x (fs.drop k) → unboundIn x (fs2.drop k) := by
  induction fs with
  | nil => intro fs2 k h; simp [assignVar] at h
  | cons f rest ih =>
    intro fs2 k h hx
    simp only [assignVar] at h
    split at h
    · rename_i hsome
      rw [Option.some_inj] at h
      subst h
      cases k with
      | zero =>
        intro g hg
        simp only [List.drop_zero] at hg hx ⊢
        rcases List.mem_cons.mp hg with hg | hg
        · subst hg
          by_cases hxn : x = n
          · subst hxn
            have := hx f (List.mem_cons_self f rest)
            rw [this] at hsome
            simp at hsome
          · rw [frameSet_lookup_other f n v x hxn]
            exact hx f (List.mem_cons_self f rest)
        · exact hx g (List.mem_cons_of_mem f hg)
      | succ k2 =>
        simpa [List.drop_succ_cons] using hx
    · rename_i hnone
      cases ha : assignVar rest n v with
      | none => rw [ha] at h; simp at h
      | some rest2 =>
        rw [ha] at h
        rw [Option.some_inj] at h
        subst h
        cases k with
        | zero =>
          intro g hg
          simp only [List.drop_zero] at hg hx ⊢
          rcases List.mem_cons.mp hg with hg | hg
          · subst hg
            exact hx g (List.mem_cons_self g rest)
          · have hrest : unboundIn x rest := fun g2 hg2 =>
              hx g2 (List.mem_cons_of_mem f hg2)
            have := ih rest2 0 ha (by simpa [List.drop_zero] using hrest)
            exact this g (by simpa using hg)
        | succ k2 =>
          simp only [List.drop_succ_cons] at hx ⊢
          exact ih rest2 k2 ha hx


theorem drop_tail_eq {α : Type} (l : List α) (k : Nat) :
    l.tail.drop k = l.drop (k + 1) := by
  cases l <;> simp

theorem framesPreserved (fuel : Nat) :
    (∀ (st : State) (e : Expression) (x : String) (k : Nat),
        unboundIn x (st.frames.drop k) →
        unboundIn x ((resFrames (evalExpr fuel st e)).drop k)) ∧
    (∀ (st : State) (es : List Expression) (x : String) (k : Nat),
        unboundIn x (st.frames.drop k) →
        unboundIn x ((resFrames (evalArgs fuel st es)).drop k)) ∧
    (∀ (st : State) (e? : Option Expression) (x : String) (k : Nat),
        unboundIn x (st.frames.drop k) →
        unboundIn x ((resFrames (evalOpt fuel st e?)).drop k)) ∧
    (∀ (st : State) (fname : String) (params : List String)
        (body : List Statement) (args : List Expression) (x : String) (k : Nat),
        unboundIn x (st.frames.drop k) →
        unboundIn x ((resFrames (callFunction fuel st fname params body args)).drop k)) ∧
    (∀ (st : State) (s : Statement) (x : String) (k : Nat), 1 ≤ k →
        unboundIn x (st.frames.drop k) →
        unboundIn x ((erFrames (execStmt fuel st s)).drop k)) ∧
    (∀ (st : State) (elifs : List (Expression × List Statement))
        (eb : Option (List Statement)) (x : String) (k : Nat), 1 ≤ k →
        unboundIn x (st.frames.drop k) →
        unboundIn x ((erFrames (execElifs fuel st elifs eb)).drop k)) ∧
    (∀ (st : State) (c : Expression) (body : List Statement) (x : String) (k : Nat),
        1 ≤ k →
        unboundIn x (st.frames.drop k) →
        unboundIn x ((erFrames (whileLoop fuel st c body)).drop k)) ∧
    (∀ (st : State) (ss : List Statement) (x : String) (k : Nat), 1 ≤ k →
        unboundIn x (st.frames.drop k) →
        unboundIn x ((erFrames (execStmts fuel st ss)).drop k)) := by
  induction fuel with
  | zero =>
    refine ⟨?_, ?_, ?_, ?_, ?_, ?_, ?_, ?_⟩
    all_goals intro st
    all_goals first
      | (intro e x k hx; simpa [evalExpr, evalArgs, evalOpt, resFrames] using hx)
      | (intro e x k hk hx; simpa [execStmt, execElifs, whileLoop, execStmts, erFrames] using hx)
      | (intro e e2 x k hx; simpa [evalOpt, resFrames] using hx)
      | (intro e e2 x k hk hx; simpa [execElifs, erFrames] using hx)
      | (intro f p b a x k hx; simpa [callFunction, resFrames] using hx)
      | (intro c b x k hk hx; simpa [whileLoop, erFrames] using hx)
  | succ fuel ih =>
    obtain ⟨ihE, ihA, ihO, ihC, ihS, ihEl, ihW, ihSS⟩ := ih
    refine ⟨?_, ?_, ?_, ?_, ?_, ?_, ?_, ?_⟩
    · intro st e x k hx
      cases e with
      | Literal v => exact hx
      | Identifier name =>
        simp only [evalExpr]
        split
        all_goals exact hx
      | GlobalVariable name =>
        simp only [evalExpr]
        split
        all_goals exact hx
      | PropertyAccess o p =>
        have H1 := ihE st o x k hx
        cases h1 : evalExpr fuel st o with
        | err m st1 => rw [h1] at H1; simp only [evalExpr, h1]; exact H1
        | ok ov st1 =>
          rw [h1] at H1
          simp only [evalExpr, h1]
          repeat' split
          all_goals exact H1
      | BinaryOperation l op r =>
        have H1 := ihE st l x k hx
        cases h1 : evalExpr fuel st l with
        | err m st1 => rw [h1] at H1; simp only [evalExpr, h1]; exact H1
        | ok lv st1 =>
          rw [h1] at H1
          simp only [resFrames] at H1
          have H2 := ihE st1 r x k H1
          cases h2 : evalExpr fuel st1 r with
          | err m st2 => rw [h2] at H2; simp only [evalExpr, h1, h2]; exact H2
          | ok rv st2 =>
            rw [h2] at H2
            simp only [evalExpr, h1, h2]
            repeat' split
            all_goals exact H2
      | Comparison l op r =>
        have H1 := ihE st l x k hx
        cases h1 : evalExpr fuel st l with
        | err m st1 => rw [h1] at H1; simp only [evalExpr, h1]; exact H1
        | ok lv st1 =>
          rw [h1] at H1
          simp only [resFrames] at H1
          have H2 := ihE st1 r x k H1
          cases h2 : evalExpr fuel st1 r with
          | err m st2 => rw [h2] at H2; simp only [evalExpr, h1, h2]; exact H2
          | ok rv st2 =>
            rw [h2] at H2
            simp only [evalExpr, h1, h2]
            repeat' split
            all_goals exact H2
      | LogicalOperation l op r =>
        have H1 := ihE st l x k hx
        cases h1 : evalExpr fuel st l with
        | err m st1 => rw [h1] at H1; simp only [evalExpr, h1]; exact H1
        | ok lv st1 =>
          rw [h1] at H1
          simp only [resFrames] at H1
          have H2 := ihE st1 r x k H1
          cases h2 : evalExpr fuel st1 r with
          | err m st2 =>
            rw [h2] at H2
            simp only [evalExpr, h1, h2]
            repeat' split
            all_goals first | exact H1 | exact H2
          | ok rv st2 =>
            rw [h2] at H2
            simp only [evalExpr, h1, h2]
            repeat' split
            all_goals first | exact H1 | exact H2
      | UnaryOperation op operand =>
        have H1 := ihE st operand x k hx
        cases h1 : evalExpr fuel st operand with
        | err m st1 => rw [h1] at H1; simp only [evalExpr, h1]; exact H1
        | ok v st1 =>
          rw [h1] at H1
          simp only [evalExpr, h1]
          repeat' split
          all_goals exact H1
      | MemberCheck op l r =>
        have H1 := ihE st l x k hx
        cases h1 : evalExpr fuel st l with
        | err m st1 => rw [h1] at H1; simp only [evalExpr, h1]; exact H1
        | ok lv st1 =>
          rw [h1] at H1
          simp only [resFrames] at H1
          have H2 := ihE st1 r x k H1
          cases h2 : evalExpr fuel st1 r with
          | err m st2 => rw [h2] at H2; simp only [evalExpr, h1, h2]; exact H2
          | ok rv st2 =>
            rw [h2] at H2
            simp only [evalExpr, h1, h2]
            repeat' split
            all_goals exact H2
      | ListIndex lexpr iexpr =>
        have H1 := ihE st lexpr x k hx
        cases h1 : evalExpr fuel st lexpr with
        | err m st1 => rw [h1] at H1; simp only [evalExpr, h1]; exact H1
        | ok lv st1 =>
          rw [h1] at H1
          simp only [resFrames] at H1
          have H2 := ihE st1 iexpr x k H1
          cases h2 : evalExpr fuel st1 iexpr with
          | err m st2 => rw [h2] at H2; simp only [evalExpr, h1, h2]; exact H2
          | ok iv st2 =>
            rw [h2] at H2
            simp only [evalExpr, h1, h2]
            repeat' split
            all_goals exact H2
      | ListSlice lexpr s? e? =>
        have H1 := ihE st lexpr x k hx
        cases h1 : evalExpr fuel st lexpr with
        | err m st1 => rw [h1] at H1; simp only [evalExpr, h1]; exact H1
        | ok lv st1 =>
          rw [h1] at H1
          simp only [resFrames] at H1
          have H2 := ihO st1 s? x k H1
          cases h2 : evalOpt fuel st1 s? with
          | err m st2 => rw [h2] at H2; simp only [evalExpr, h1, h2]; exact H2
          | ok sv st2 =>
            rw [h2] at H2
            simp only [resFrames] at H2
            have H3 := ihO st2 e? x k H2
            cases h3 : evalOpt fuel st2 e? with
            | err m st3 => rw [h3] at H3; simp only [evalExpr, h1, h2, h3]; exact H3
            | ok ev st3 =>
              rw [h3] at H3
              simp only [evalExpr, h1, h2, h3]
              repeat' split
              all_goals exact H3
      | FunctionCall name args =>
        have HA := ihA st args x k hx
        simp only [evalExpr]
        split
        · cases ha : evalArgs fuel st args with
          | err m st1 => rw [ha] at HA; simp only [ha]; exact HA
          | ok vals st1 =>
            rw [ha] at HA
            simp only [ha]
            repeat' split
            all_goals exact HA
        · split
          · exact hx
          · exact ihC st _ _ _ args x k hx
          · exact hx
      | MethodCall o mname args =>
        have H1 := ihE st o x k hx
        cases h1 : evalExpr fuel st o with
        | err m st1 => rw [h1] at H1; simp only [evalExpr, h1]; exact H1
        | ok ov st1 =>
          rw [h1] at H1
          simp only [resFrames] at H1
          simp only [evalExpr, h1]
          split
          · split
            · split
              · rename_i a
                have H2 := ihE st1 a x k H1
                cases h2 : evalExpr fuel st1 a with
                | err m st2 => rw [h2] at H2; simp only [h2]; exact H2
                | ok elem st2 =>
                  rw [h2] at H2
                  simp only [h2]
                  repeat' split
                  all_goals exact H2
              · exact H1
            · split
              · split
                · rename_i a
                  have H2 := ihE st1 a x k H1
                  cases h2 : evalExpr fuel st1 a with
                  | err m st2 => rw [h2] at H2; simp only [h2]; exact H2
                  | ok iv st2 =>
                    rw [h2] at H2
                    simp only [h2]
                    repeat' split
                    all_goals exact H2
                · exact H1
              · exact H1
          · repeat' split
            all_goals exact H1
          · exact H1
      | ListLiteral elems =>
        have HA := ihA st elems x k hx
        cases ha : evalArgs fuel st elems with
        | err m st1 => rw [ha] at HA; simp only [evalExpr, ha]; exact HA
        | ok vals st1 =>
          rw [ha] at HA
          simp only [evalExpr, ha]
          repeat' split
          all_goals exact HA
      | Grouping inner =>
        simp only [evalExpr]
        exact ihE st inner x k hx
    · intro st es x k hx
      cases es with
      | nil => exact hx
      | cons e r2 =>
        have H1 := ihE st e x k hx
        cases h1 : evalExpr fuel st e with
        | err m st1 => rw [h1] at H1; simp only [evalArgs, h1]; exact H1
        | ok v st1 =>
          rw [h1] at H1
          simp only [resFrames] at H1
          have H2 := ihA st1 r2 x k H1
          cases h2 : evalArgs fuel st1 r2 with
          | err m st2 => rw [h2] at H2; simp only [evalArgs, h1, h2]; exact H2
          | ok vs st2 => rw [h2] at H2; simp only [evalArgs, h1, h2]; exact H2
    · intro st e? x k hx
      cases e? with
      | none => exact hx
      | some e =>
        have H1 := ihE st e x k hx
        cases h1 : evalExpr fuel st e with
        | err m st1 => rw [h1] at H1; simp only [evalOpt, h1]; exact H1
        | ok v st1 => rw [h1] at H1; simp only [evalOpt, h1]; exact H1
    · intro st fname params body args x k hx
      simp only [callFunction]
      split
      · exact hx
      · have HA := ihA st args x k hx
        cases ha : evalArgs fuel st args with
        | err m st1 => rw [ha] at HA; simp only [ha]; exact HA
        | ok vals st1 =>
          rw [ha] at HA
          simp only [resFrames] at HA
          simp only [ha]
          have HB : unboundIn x
              ((({ st1 with frames :=
                  ((params.zip vals).foldl (fun f pv => frameSet f pv.1 pv.2) []) ::
                    st1.frames } : State).frames).drop (k + 1)) := by
            simpa [List.drop_succ_cons] using HA
          have HS := ihSS _ body x (k + 1) (by omega) HB
          cases hs : execStmts fuel
              { st1 with frames :=
                  ((params.zip vals).foldl (fun f pv => frameSet f pv.1 pv.2) []) ::
                    st1.frames } body with
          | norm st3 =>
            rw [hs] at HS
            simp only [erFrames] at HS
            simp only [hs, resFrames]
            rw [drop_tail_eq]
            exact HS
          | ret v st3 =>
            rw [hs] at HS
            simp only [erFrames] at HS
            simp only [hs, resFrames]
            rw [drop_tail_eq]
            exact HS
          | err m st3 =>
            rw [hs] at HS
            simp only [erFrames] at HS
            simp only [hs, resFrames]
            rw [drop_tail_eq]
            exact HS
    · intro st s x k hk hx
      cases s with
      | ExpressionStatement e =>
        have H1 := ihE st e x k hx
        cases h1 : evalExpr fuel st e with
        | err m st1 => rw [h1] at H1; simp only [execStmt, h1]; exact H1
        | ok v st1 => rw [h1] at H1; simp only [execStmt, h1]; exact H1
      | Assignment target value =>
        have H1 := ihE st value x k hx
        cases h1 : evalExpr fuel st value with
        | err m st1 => rw [h1] at H1; simp only [execStmt, h1]; exact H1
        | ok v st1 =>
          rw [h1] at H1
          simp only [resFrames] at H1
          simp only [execStmt, h1]
          split
          · split
            · cases hv : assignVar st1.frames _ v with
              | some fs =>
                simp only [hv]
                exact assignVar_unbound st1.frames _ v x fs k hv H1
              | none => simp only [hv]; exact H1
            · simp only [erFrames]
              rw [define_drop _ _ _ k hk]
              exact H1
          · exact H1
          · rename_i oe pr
            have H2 := ihE st1 oe x k H1
            cases h2 : evalExpr fuel st1 oe with
            | err m st2 => rw [h2] at H2; simp only [h2]; exact H2
            | ok ov st2 => rw [h2] at H2; simp only [h2]; exact H2
          · rename_i le ie
            have H2 := ihE st1 le x k H1
            cases h2 : evalExpr fuel st1 le with
            | err m st2 => rw [h2] at H2; simp only [h2]; exact H2
            | ok lv st2 =>
              rw [h2] at H2
              simp only [resFrames] at H2
              have H3 := ihE st2 ie x k H2
              cases h3 : evalExpr fuel st2 ie with
              | err m st3 => rw [h3] at H3; simp only [h2, h3]; exact H3
              | ok iv st3 =>
                rw [h3] at H3
                simp only [h2, h3]
                repeat' split
                all_goals exact H3
          · exact H1
      | IfStatement c tb elifs eb =>
        have H1 := ihE st c x k hx
        cases h1 : evalExpr fuel st c with
        | err m st1 => rw [h1] at H1; simp only [execStmt, h1]; exact H1
        | ok cv st1 =>
          rw [h1] at H1
          simp only [resFrames] at H1
          simp only [execStmt, h1]
          cases ht : truthyV st1.store cv with
          | error m => simp only [ht]; exact H1
          | ok t =>
            simp only [ht]
            split
            · exact ihSS st1 tb x k hk H1
            · exact ihEl st1 elifs eb x k hk H1
      | WhileStatement c body =>
        simp only [execStmt]
        exact ihW st c body x k hk hx
      | FunctionDefinition name ps body =>
        simp only [execStmt, erFrames]
        rw [define_drop _ _ _ k hk]
        exact hx
      | ReturnStatement v? =>
        cases v? with
        | none => exact hx
        | some e =>
          have H1 := ihE st e x k hx
          cases h1 : evalExpr fuel st e with
          | err m st1 => rw [h1] at H1; simp only [execStmt, h1]; exact H1
          | ok v st1 => rw [h1] at H1; simp only [execStmt, h1]; exact H1
      | IncreaseStatement target amount =>
        have H1 := ihE st amount x k hx
        cases h1 : evalExpr fuel st amount with
        | err m st1 => rw [h1] at H1; simp only [execStmt, h1]; exact H1
        | ok av st1 =>
          rw [h1] at H1
          simp only [resFrames] at H1
          simp only [execStmt, h1]
          split
          · split
            · exact H1
            · split
              · exact H1
              · cases hv : assignVar st1.frames _ _ with
                | some fs =>
                  simp only [hv]
                  exact assignVar_unbound st1.frames _ _ x fs k hv H1
                | none => simp only [hv]; exact H1
          · repeat' split
            all_goals exact H1
          · rename_i oe pr
            have H2 := ihE st1 oe x k H1
            cases h2 : evalExpr fuel st1 oe with
            | err m st2 => rw [h2] at H2; simp only [h2]; exact H2
            | ok ov st2 =>
              rw [h2] at H2
              simp only [h2]
              repeat' split
              all_goals exact H2
          · exact H1
    · intro st elifs eb x k hk hx
      cases elifs with
      | nil =>
        cases eb with
        | some b => simp only [execElifs]; exact ihSS st b x k hk hx
        | none => exact hx
      | cons p r2 =>
        obtain ⟨c, body⟩ := p
        have H1 := ihE st c x k hx
        cases h1 : evalExpr fuel st c with
        | err m st1 => rw [h1] at H1; simp only [execElifs, h1]; exact H1
        | ok cv st1 =>
          rw [h1] at H1
          simp only [resFrames] at H1
          simp only [execElifs, h1]
          cases ht : truthyV st1.store cv with
          | error m => simp only [ht]; exact H1
          | ok t =>
            simp only [ht]
            split
            · exact ihSS st1 body x k hk H1
            · exact ihEl st1 r2 eb x k hk H1
    · intro st c body x k hk hx
      have H1 := ihE st c x k hx
      cases h1 : evalExpr fuel st c with
      | err m st1 => rw [h1] at H1; simp only [whileLoop, h1]; exact H1
      | ok cv st1 =>
        rw [h1] at H1
        simp only [resFrames] at H1
        simp only [whileLoop, h1]
        cases ht : truthyV st1.store cv with
        | error m => simp only [ht]; exact H1
        | ok t =>
          simp only [ht]
          split
          · exact H1
          · have HS := ihSS st1 body x k hk H1
            cases hs : execStmts fuel st1 body with
            | norm st2 =>
              rw [hs] at HS
              simp only [erFrames] at HS
              simp only [hs]
              exact ihW st2 c body x k hk HS
            | ret v st2 => rw [hs] at HS; simp only [hs]; exact HS
            | err m st2 => rw [hs] at HS; simp only [hs]; exact HS
    · intro st ss x k hk hx
      cases ss with
      | nil => exact hx
      | cons s r2 =>
        have H1 := ihS st s x k hk hx
        cases h1 : execStmt fuel st s with
        | norm st1 =>
          rw [h1] at H1
          simp only [erFrames] at H1
          simp only [execStmts, h1]
          exact ihSS st1 r2 x k hk H1
        | ret v st1 => rw [h1] at H1; simp only [execStmts, h1]; exact H1
        | err m st1 => rw [h1] at H1; simp only [execStmts, h1]; exact H1



/-- C2 (amended): `_call_function` gives the function body the CALLER's
environment as parent, so a body-level `set x to v` writes through the scope
chain into the caller's own binding whenever `x` is already bound there —
the assignment leaks (see the counterexample).  Only when `x` is unbound in
the whole chain does the body define `x` in its private frame: a name
unbound in every caller scope at call time is still unbound after the call
returns.  A global `$x` assignment inside the body is visible after the
call, as claimed. -/
theorem C2_function_scoping_amended :
    (∀ (fuel : Nat) (st : State) (fname : String) (params : List String)
        (body : List Statement) (args : List Expression) (x : String),
        unboundIn x st.frames →
        unboundIn x (resFrames (callFunction fuel st fname params body args))) ∧
    (∀ (fuel : Nat) (st : State) (nf : Frame) (cf : List Frame)
        (name : String) (value : Expression) (v : Value) (st1 : State),
        evalExpr fuel st value = .ok v st1 →
        st1.frames = nf :: cf →
        lookupFrame nf name = none →
        existsVar cf name = true →
        ∃ cf2, execStmt (fuel + 1) st (.Assignment (.Identifier name) value) =
            .norm { st1 with frames := nf :: cf2 } ∧
          getVar cf2 name = some v) ∧
    (∀ (fuel : Nat) (st : State) (name : String) (value : Expression)
        (v : Value) (st1 : State),
        evalExpr fuel st value = .ok v st1 →
        execStmt (fuel + 1) st (.Assignment (.GlobalVariable name) value) =
            .norm { st1 with globals := frameSet st1.globals name v } ∧
          lookupFrame (frameSet st1.globals name v) name = some v) ∧
    globalProgFinalG = some (.VNumber 99) := by
  refine ⟨?_, ?_, ?_, rfl⟩
  · intro fuel st fname params body args x hx
    have h := (framesPreserved fuel).2.2.2.1 st fname params body args x 0
      (by simpa using hx)
    simpa using h
  · intro fuel st nf cf name value v st1 hv hfr hnf hex
    obtain ⟨cf2, ha, hg⟩ := assignVar_of_exists cf name v hex
    have hex2 : existsVar st1.frames name = true := by
      rw [hfr]
      show ((lookupFrame nf name).isSome || existsVar cf name) = true
      rw [hnf, hex]
      rfl
    have hassign : assignVar st1.frames name v = some (nf :: cf2) := by
      rw [hfr]
      simp [assignVar, hnf, ha]
    refine ⟨cf2, ?_, hg⟩
    simp [execStmt, hv, hex2, hassign]
  · intro fuel st name value v st1 hv
    exact ⟨by simp [execStmt, hv], frameSet_lookup_self st1.globals name v⟩

/-- C2 counterexample: in `set x to 1; function f(): set x to 99; f()` the
body's `set x to 99` leaks into the caller's scope — after the call the
top-level `x` is 99, refuting "the caller's scope bindings for x are
unchanged after the call returns". -/
theorem C2_counterexample : leakProgFinalX = some (.VNumber 99) := rfl

theorem C2_function_scoping_amended_witness :
    ∃ cf2, execStmt 2
        { frames := [[], [("x", .VNumber 1)]], globals := [], store := [] }
        (.Assignment (.Identifier "x") (.Literal (.num 99))) =
      .norm { frames := [] :: cf2, globals := [], store := []} ∧
      getVar cf2 "x" = some (.VNumber 99) :=
  C2_function_scoping_amended.2.1 1
    { frames := [[], [("x", .VNumber 1)]], globals := [], store := [] }
    [] [[("x", .VNumber 1)]] "x" (.Literal (.num 99)) (.VNumber 99)
    { frames := [[], [("x", .VNumber 1)]], globals := [], store := [] }
    rfl rfl rfl rfl

end Interp
end HPL
